import Mathlib

/-!
Shallow embedding of the hcl-lang decoder (schema-aware static analysis for
an HCL-like configuration language): the hover path, the semantic token
emitter, the expression constraint engine and the completion candidate
generator, together with the schema data model they consume.

Translated from the Go sources:
* `decoder/hover.go` (hover path, expression constraint selection),
* `decoder/semantic_tokens.go` (semantic token emitter),
* `decoder/expression_candidates.go` (candidate generator),
* `schema/expressions.go` (expression constraints).

Go maps are represented as association lists (deterministic iteration
order); `*T` pointers that may be nil become `Option`; `(T, error)`
returns become `Except`.  Machine details that cannot affect any result
proved here (mutexes, URL query encoding) are noted where they are
elided.
-/

namespace HclLang

/-- `hcl.Pos`: a source position (line, column, byte offset). -/
structure Pos where
  line : Nat
  column : Nat
  byte : Nat
deriving DecidableEq, Repr

/-- `hcl.Range`: a source range, with `endPos` standing for Go's `End`. -/
structure Range where
  filename : String
  start : Pos
  endPos : Pos
deriving DecidableEq, Repr

/-- `hcl.Range.ContainsPos` (via `ContainsOffset`): byte-offset containment,
start inclusive, end exclusive. -/
def Range.containsPos (r : Range) (p : Pos) : Bool :=
  r.start.byte ≤ p.byte && p.byte < r.endPos.byte

/-- `cty.Type`.  Object attribute maps are represented as association
lists kept in canonical (name-sorted) order — cty stores an unordered map
and the decoder only ever iterates it through `sortedObjectAttrNames`.
`nil` is Go's zero `cty.Type` (`cty.NilType`), `dynamicPseudoType` is
`cty.DynamicPseudoType`. -/
inductive CtyType where
  | string
  | bool
  | number
  | dynamicPseudoType
  | nil
  | list (elem : CtyType)
  | set (elem : CtyType)
  | map (elem : CtyType)
  | tuple (elems : List CtyType)
  | object (attrs : List (String × CtyType))

mutual
/-- `cty.Type.Equals`: deep structural type equality (object attribute
maps are compared through the canonical-order association lists). -/
def CtyType.beq : CtyType → CtyType → Bool
  | .string, .string => true
  | .bool, .bool => true
  | .number, .number => true
  | .dynamicPseudoType, .dynamicPseudoType => true
  | .nil, .nil => true
  | .list a, .list b => CtyType.beq a b
  | .set a, .set b => CtyType.beq a b
  | .map a, .map b => CtyType.beq a b
  | .tuple a, .tuple b => CtyType.beqList a b
  | .object a, .object b => CtyType.beqAttrs a b
  | _, _ => false

/-- Element-wise `Equals` on tuple element type sequences. -/
def CtyType.beqList : List CtyType → List CtyType → Bool
  | [], [] => true
  | a :: as, b :: bs => CtyType.beq a b && CtyType.beqList as bs
  | _, _ => false

/-- Entry-wise `Equals` on object attribute lists. -/
def CtyType.beqAttrs : List (String × CtyType) → List (String × CtyType) → Bool
  | [], [] => true
  | (n, a) :: as, (m, b) :: bs => n == m && CtyType.beq a b && CtyType.beqAttrs as bs
  | _, _ => false
end

/-- `cty.Type.IsPrimitiveType`. -/
def CtyType.isPrimitiveType : CtyType → Bool
  | .string | .bool | .number => true
  | _ => false

/-- `cty.Type.IsListType`. -/
def CtyType.isListType : CtyType → Bool
  | .list _ => true
  | _ => false

/-- `cty.Type.IsSetType`. -/
def CtyType.isSetType : CtyType → Bool
  | .set _ => true
  | _ => false

/-- `cty.Type.IsMapType`. -/
def CtyType.isMapType : CtyType → Bool
  | .map _ => true
  | _ => false

/-- `cty.Type.IsTupleType`. -/
def CtyType.isTupleType : CtyType → Bool
  | .tuple _ => true
  | _ => false

/-- `cty.Type.IsObjectType`. -/
def CtyType.isObjectType : CtyType → Bool
  | .object _ => true
  | _ => false

/-- `cty.Type.ElementType` / `MapElementType` / `ListElementType` /
`SetElementType`: the single element type of a collection type. -/
def CtyType.elementType : CtyType → CtyType
  | .list e | .set e | .map e => e
  | _ => .nil

/-- `cty.Type.TupleElementTypes`. -/
def CtyType.tupleElementTypes : CtyType → List CtyType
  | .tuple es => es
  | _ => []

/-- `cty.Type.TupleElementType i` (out-of-range yields the zero type;
the Go call would panic there and is never reached in-range). -/
def CtyType.tupleElementType (t : CtyType) (i : Nat) : CtyType :=
  (t.tupleElementTypes.getD i .nil)

/-- The object type's attribute association list. -/
def CtyType.objectAttrs : CtyType → List (String × CtyType)
  | .object attrs => attrs
  | _ => []

/-- `cty.Type.AttributeType name` via the association list. -/
def CtyType.attributeType (t : CtyType) (name : String) : Option CtyType :=
  (t.objectAttrs.find? (fun p => p.1 == name)).map (·.2)

/-- `cty.Type.FriendlyName` (the fragment of it the decoder can print). -/
def CtyType.friendlyName : CtyType → String
  | .string => "string"
  | .bool => "bool"
  | .number => "number"
  | .dynamicPseudoType => "dynamic"
  | .nil => "nil"
  | .list e => "list of " ++ e.friendlyName
  | .set e => "set of " ++ e.friendlyName
  | .map e => "map of " ++ e.friendlyName
  | .tuple _ => "tuple"
  | .object _ => "object"

/-- `cty.Value` restricted to the shapes a `LiteralValueExpr` can carry:
scalar literals, null, and not-wholly-known values.  `unknownVal t` is
`cty.UnknownVal t`, `nullVal t` is `cty.NullVal t`. -/
inductive CtyValue where
  | unknownVal (t : CtyType)
  | nullVal (t : CtyType)
  | str (s : String)
  | boolVal (b : Bool)
  | num (n : Int)

/-- `cty.Value.Type`. -/
def CtyValue.typeOf : CtyValue → CtyType
  | .unknownVal t => t
  | .nullVal t => t
  | .str _ => .string
  | .boolVal _ => .bool
  | .num _ => .number

/-- `cty.Value.IsWhollyKnown` (null values are wholly known in cty). -/
def CtyValue.isWhollyKnown : CtyValue → Bool
  | .unknownVal _ => false
  | _ => true

/-- `cty.Value.AsString` (defined only on string values; other cases are
unreachable where the decoder calls it). -/
def CtyValue.asString : CtyValue → String
  | .str s => s
  | _ => ""

/-- `cty.Value.True`. -/
def CtyValue.isTrue : CtyValue → Bool
  | .boolVal b => b
  | _ => false

/-- `cty.Value.AsBigFloat().String()`; numbers are modelled as integers
(every literal exercised here is integral). -/
def CtyValue.numString : CtyValue → String
  | .num n => toString n
  | _ => "0"

/-- Structural equality on the literal values above (`cty.Value.RawEquals`
as far as dependency-key serialization needs it). -/
def CtyValue.beq : CtyValue → CtyValue → Bool
  | .unknownVal t, .unknownVal t' => CtyType.beq t t'
  | .nullVal t, .nullVal t' => CtyType.beq t t'
  | .str s, .str s' => s == s'
  | .boolVal b, .boolVal b' => b == b'
  | .num n, .num n' => n == n'
  | _, _ => false

/-- `hclsyntax.Expression`, restricted to the node kinds the decoder
inspects; every other kind (references, function calls, operators, …)
is collapsed into `otherExpr`, which every `switch` in the source sends
to its default/unsupported path.  Object construction items carry the
key and value expressions. -/
inductive Expr where
  | templateExpr (parts : List Expr) (srcRange : Range)
  | templateWrapExpr (wrapped : Expr) (srcRange : Range)
  | tupleConsExpr (exprs : List Expr) (srcRange : Range)
  | objectConsExpr (items : List (Expr × Expr)) (srcRange : Range)
  | literalValueExpr (val : CtyValue) (srcRange : Range)
  | otherExpr (srcRange : Range)

/-- `hcl.Expression.Range`. -/
def Expr.range : Expr → Range
  | .templateExpr _ r => r
  | .templateWrapExpr _ r => r
  | .tupleConsExpr _ r => r
  | .objectConsExpr _ r => r
  | .literalValueExpr _ r => r
  | .otherExpr r => r

/-- `hcl.Expression.Value(nil)` as the semantic token emitter uses it on
object keys: a literal yields its value, anything else is not a wholly
known string key here. -/
def Expr.value : Expr → CtyValue
  | .literalValueExpr v _ => v
  | _ => .unknownVal .dynamicPseudoType

/-- `hclsyntax.Attribute`: a name bound to a value expression.
`srcRange` is `attr.Range()` (= `SrcRange`). -/
structure Attribute where
  name : String
  expr : Expr
  nameRange : Range
  srcRange : Range

mutual
/-- `hclsyntax.Body`: attributes, nested blocks, and the body's range.
Go's attribute map is an association list here (the map key equals the
attribute's `Name`, a parser invariant). -/
inductive Body where
  | mk (attributes : List Attribute) (blocks : List Block) (srcRange : Range)

/-- `hclsyntax.Block`: type keyword, labels, nested body and ranges.
The parser always populates `Body`, so it is not optional here; the
source's `block.Body != nil` checks are then vacuously true. -/
inductive Block where
  | mk (type : String) (labels : List String) (body : Body)
       (typeRange : Range) (labelRanges : List Range) (srcRange : Range)
end

def Body.attributes : Body → List Attribute
  | .mk a _ _ => a

def Body.blocks : Body → List Block
  | .mk _ b _ => b

def Body.srcRange : Body → Range
  | .mk _ _ r => r

def Block.type : Block → String
  | .mk t _ _ _ _ _ => t

def Block.labels : Block → List String
  | .mk _ l _ _ _ _ => l

def Block.body : Block → Body
  | .mk _ _ b _ _ _ => b

def Block.typeRange : Block → Range
  | .mk _ _ _ r _ _ => r

def Block.labelRanges : Block → List Range
  | .mk _ _ _ _ rs _ => rs

def Block.srcRange : Block → Range
  | .mk _ _ _ _ _ r => r

/-! ## The `lang` package: query result types. -/

/-- `lang.MarkupKind`. -/
inductive MarkupKind where
  | plainTextKind
  | markdownKind
deriving DecidableEq, Repr

/-- `lang.MarkupContent`. -/
structure MarkupContent where
  value : String
  kind : MarkupKind
deriving DecidableEq, Repr

/-- `lang.Markdown`. -/
def Markdown (value : String) : MarkupContent :=
  { value := value, kind := .markdownKind }

/-- `lang.PlainText`. -/
def PlainText (value : String) : MarkupContent :=
  { value := value, kind := .plainTextKind }

/-- `lang.HoverData`. -/
structure HoverData where
  content : MarkupContent
  range : Range
deriving DecidableEq, Repr

/-- `lang.SemanticTokenType` (the closed enumeration of token types). -/
inductive SemanticTokenType where
  | blockType
  | blockLabel
  | attrName
  | stringTok
  | numberTok
  | boolTok
  | objectKey
  | mapKey
deriving DecidableEq, Repr

/-- `lang.SemanticTokenModifier` (the closed enumeration of modifiers). -/
inductive SemanticTokenModifier where
  | dependent
  | deprecated
deriving DecidableEq, Repr

/-- `lang.SemanticToken`. -/
structure SemanticToken where
  tokenType : SemanticTokenType
  modifiers : List SemanticTokenModifier
  range : Range
deriving DecidableEq, Repr

/-- `lang.CandidateKind` (only the kind the candidate generator emits). -/
inductive CandidateKind where
  | literalValueCandidateKind
deriving DecidableEq, Repr

/-- `lang.TextEdit`. -/
structure TextEdit where
  newText : String
  snippet : String
  range : Range
deriving DecidableEq, Repr

/-- `lang.Candidate`. -/
structure Candidate where
  label : String
  detail : String
  description : MarkupContent
  kind : CandidateKind
  textEdit : TextEdit
deriving DecidableEq, Repr

/-- `lang.Candidates`. -/
structure Candidates where
  list : List Candidate
  isComplete : Bool
deriving DecidableEq, Repr

/-- Modelled from the spec: `lang.NewCandidates` is not under `src/`;
it builds the empty, not-yet-complete list that
`expressionCandidatesAtPos` then fills and marks complete. -/
def NewCandidates : Candidates :=
  { list := [], isComplete := false }

/-- Modelled from the spec: `lang.ZeroCandidates` is not under `src/`;
the spec's "empty candidate list" returned when no constraint offers
completion (an empty but complete list). -/
def ZeroCandidates : Candidates :=
  { list := [], isComplete := true }

/-! ## The `schema` package: the schema model. -/

/-- `schema.LiteralTypeExpr`: "this position accepts a literal value of
exactly this type". -/
structure LiteralTypeExpr where
  type : CtyType

/-- `schema.ExprConstraint`: the closed constraint sum type; the one
concrete variant is `LiteralTypeExpr`. -/
inductive ExprConstraint where
  | literalType (lt : LiteralTypeExpr)

/-- `schema.ExprConstraints`: an ordered sequence of constraints, tried
in order. -/
abbrev ExprConstraints := List ExprConstraint

/-- `schema.LiteralTypeOnly`. -/
def LiteralTypeOnly (t : CtyType) : ExprConstraints :=
  [.literalType ⟨t⟩]

/-- `schema.ExprConstraints.LiteralValueTypes`. -/
def ExprConstraints.literalValueTypes (ec : ExprConstraints) : List CtyType :=
  ec.map (fun c => match c with | .literalType lt => lt.type)

/-- `schema.AttributeSchema`. -/
structure AttributeSchema where
  expr : ExprConstraints := []
  isDeprecated : Bool := false
  description : MarkupContent := PlainText ""

/-- `schema.LabelSchema`. -/
structure LabelSchema where
  name : String := ""
  description : MarkupContent := PlainText ""
  isDepKey : Bool := false

/-- `schema.DocsLink`. -/
structure DocsLink where
  url : String := ""
  tooltip : String := ""

/-- `schema.LabelDependent`: a (label index, literal value) dependency
fact. -/
structure LabelDependent where
  index : Nat
  value : String

/-- `schema.AttributeDependent`: an (attribute name, literal value)
dependency fact. -/
structure AttributeDependent where
  name : String
  value : CtyValue

/-- `schema.DependencyKeys`. -/
structure DependencyKeys where
  labels : List LabelDependent := []
  attributes : List AttributeDependent := []

/-- Modelled from the spec: `schema.SchemaKey` / `schema.NewSchemaKey`
are not under `src/`.  The canonical, order-independent serialization of
a `DependencyKeys` set is modelled as the pair of its label facts sorted
by index and its attribute facts sorted by name. -/
structure SchemaKey where
  labels : List LabelDependent
  attributes : List AttributeDependent

/-- Equality of canonical keys (the serialized strings compare equal iff
the sorted fact lists match entry-wise). -/
def SchemaKey.beq (a b : SchemaKey) : Bool :=
  a.labels.length == b.labels.length
    && (a.labels.zip b.labels).all
        (fun p => p.1.index == p.2.index && p.1.value == p.2.value)
    && a.attributes.length == b.attributes.length
    && (a.attributes.zip b.attributes).all
        (fun p => p.1.name == p.2.name && CtyValue.beq p.1.value p.2.value)

/-- Modelled from the spec: `schema.NewSchemaKey` (canonicalization into
a stable ordering, independent of construction order). -/
def NewSchemaKey (dk : DependencyKeys) : SchemaKey :=
  { labels := dk.labels.mergeSort (fun a b => a.index ≤ b.index)
    attributes := dk.attributes.mergeSort (fun a b => a.name ≤ b.name) }

mutual
/-- `schema.BodySchema`: named attribute schemas, named block schemas,
and the optional fallback any-attribute schema.  The Go maps are
association lists with exact-match lookup. -/
inductive BodySchema where
  | mk (attributes : List (String × AttributeSchema))
       (blocks : List (String × BlockSchema))
       (anyAttribute : Option AttributeSchema)
       (detail : String) (description : MarkupContent)
       (docsLink : Option DocsLink)

/-- `schema.BlockSchema`: label schemas (position-significant), the
block's own body schema, the dependent-body-schema table keyed by
canonical `SchemaKey`, deprecation, detail/description and an optional
documentation link. -/
inductive BlockSchema where
  | mk (labels : List LabelSchema) (body : Option BodySchema)
       (dependentBody : List (SchemaKey × BodySchema))
       (isDeprecated : Bool) (detail : String) (description : MarkupContent)
       (docsLink : Option DocsLink)
end

def BodySchema.attributes : BodySchema → List (String × AttributeSchema)
  | .mk a _ _ _ _ _ => a

def BodySchema.blocks : BodySchema → List (String × BlockSchema)
  | .mk _ b _ _ _ _ => b

def BodySchema.anyAttribute : BodySchema → Option AttributeSchema
  | .mk _ _ any _ _ _ => any

def BodySchema.detail : BodySchema → String
  | .mk _ _ _ d _ _ => d

def BodySchema.description : BodySchema → MarkupContent
  | .mk _ _ _ _ d _ => d

def BodySchema.docsLink : BodySchema → Option DocsLink
  | .mk _ _ _ _ _ l => l

def BlockSchema.labels : BlockSchema → List LabelSchema
  | .mk l _ _ _ _ _ _ => l

def BlockSchema.body : BlockSchema → Option BodySchema
  | .mk _ b _ _ _ _ _ => b

def BlockSchema.dependentBody : BlockSchema → List (SchemaKey × BodySchema)
  | .mk _ _ d _ _ _ _ => d

def BlockSchema.isDeprecated : BlockSchema → Bool
  | .mk _ _ _ d _ _ _ => d

def BlockSchema.detail : BlockSchema → String
  | .mk _ _ _ _ d _ _ => d

def BlockSchema.description : BlockSchema → MarkupContent
  | .mk _ _ _ _ _ d _ => d

def BlockSchema.docsLink : BlockSchema → Option DocsLink
  | .mk _ _ _ _ _ _ l => l

/-- `bodySchema.Attributes[name]` followed by the `AnyAttribute`
fallback, as both the hover path and the token emitter perform it. -/
def BodySchema.lookupAttr (bs : BodySchema) (name : String) :
    Option AttributeSchema :=
  match bs.attributes.find? (fun p => p.1 == name) with
  | some p => some p.2
  | none => bs.anyAttribute

/-- `bodySchema.Blocks[blockType]` exact-match lookup. -/
def BodySchema.lookupBlock (bs : BodySchema) (blockType : String) :
    Option BlockSchema :=
  (bs.blocks.find? (fun p => p.1 == blockType)).map (·.2)

/-- Modelled from the spec: `dependencyKeysFromBlock` is not under
`src/`.  For every label schema flagged `IsDepKey`, the corresponding
label value is read from the block instance by position (labels the
instance does not have contribute nothing); the `AttributeSchema` in
`src/` carries no dependency flag, so no attribute facts arise. -/
def dependencyKeysFromBlock (block : Block) (bSchema : BlockSchema) :
    DependencyKeys :=
  { labels :=
      (bSchema.labels.enum.filterMap (fun p =>
        if p.2.isDepKey then
          match block.labels.get? p.1 with
          | some v => some { index := p.1, value := v }
          | none => none
        else none))
    attributes := [] }

/-- Modelled from the spec: `BlockSchema.DependentBodySchema` is not
under `src/`.  Canonicalize the instance's dependency keys and look the
result up in the dependent-body-schema table; an empty key set matches
nothing, and a miss is `none`, never an error. -/
def BlockSchema.dependentBodySchema (bs : BlockSchema)
    (dk : DependencyKeys) : Option BodySchema :=
  if dk.labels.isEmpty && dk.attributes.isEmpty then none
  else
    ((bs.dependentBody.find? (fun p => SchemaKey.beq p.1 (NewSchemaKey dk))).map (·.2))

/-! ## The expression constraint engine (`decoder/hover.go`). -/

/-- `listTypeLiteralConstraint`: the first constraint that is a
`LiteralTypeExpr` of a list type. -/
def listTypeLiteralConstraint : ExprConstraints → Option LiteralTypeExpr
  | [] => none
  | .literalType lve :: rest =>
      if lve.type.isListType then some lve else listTypeLiteralConstraint rest

/-- `setTypeLiteralConstraint`. -/
def setTypeLiteralConstraint : ExprConstraints → Option LiteralTypeExpr
  | [] => none
  | .literalType lve :: rest =>
      if lve.type.isSetType then some lve else setTypeLiteralConstraint rest

/-- `tupleTypeLiteralConstraint`. -/
def tupleTypeLiteralConstraint : ExprConstraints → Option LiteralTypeExpr
  | [] => none
  | .literalType lve :: rest =>
      if lve.type.isTupleType then some lve else tupleTypeLiteralConstraint rest

/-- `objectTypeLiteralConstraint`. -/
def objectTypeLiteralConstraint : ExprConstraints → Option LiteralTypeExpr
  | [] => none
  | .literalType lve :: rest =>
      if lve.type.isObjectType then some lve else objectTypeLiteralConstraint rest

/-- `mapTypeLiteralConstraint`. -/
def mapTypeLiteralConstraint : ExprConstraints → Option LiteralTypeExpr
  | [] => none
  | .literalType lve :: rest =>
      if lve.type.isMapType then some lve else mapTypeLiteralConstraint rest

/-- `literalExprForType`: the first constraint whose declared type is
*exactly equal* (`cty.Type.Equals`) to the expression's value type. -/
def literalExprForType (exprType : CtyType) : ExprConstraints → Option LiteralTypeExpr
  | [] => none
  | .literalType lve :: rest =>
      if CtyType.beq lve.type exprType then some lve
      else literalExprForType exprType rest

/-- Modelled from the spec: `sortedObjectAttrNames` is not under `src/`;
it returns the object type's attribute names in ascending order.  Object
types are represented with their attribute lists already in that
canonical order, so it reads the stored list. -/
def sortedObjectAttrNames (t : CtyType) : List String :=
  t.objectAttrs.map (·.1)

/-- Go's `%q` on the identifier-shaped strings the decoder quotes. -/
def goQuote (s : String) : String :=
  "\"" ++ s ++ "\""

/-- `hoverContentForValueAndType`. -/
def hoverContentForValueAndType (val : CtyValue) (t : CtyType) :
    Except String MarkupContent :=
  if t.isPrimitiveType then
    let rendered :=
      match t with
      | .string => "`" ++ val.asString ++ "`"
      | .bool => "`" ++ (if val.isTrue then "true" else "false") ++ "`"
      | .number => "`" ++ val.numString ++ "`"
      | _ => ""
    .ok { value := rendered ++ " _" ++ t.friendlyName ++ "_", kind := .markdownKind }
  else if t.isObjectType then
    let attrNames := sortedObjectAttrNames t
    if attrNames.isEmpty then
      .ok { value := t.friendlyName, kind := .markdownKind }
    else
      let listing := String.join (attrNames.map (fun name =>
        "  " ++ name ++ " = " ++ ((t.attributeType name).getD .nil).friendlyName ++ "\n"))
      .ok { value := "```\n\x7b\n" ++ listing ++ "\x7d\n```\n_object_",
            kind := .markdownKind }
  else if t.isMapType || t.isListType || t.isSetType || t.isTupleType then
    .ok { value := "_" ++ t.friendlyName ++ "_", kind := .markdownKind }
  else
    .error ("unsupported type: " ++ goQuote t.friendlyName)

/-- `hoverContentForExpr`: classify the expression node against the
constraint sequence and render the matched type; expression kinds the
engine does not support fall to an "unsupported expression" error, and a
literal whose value type equals no constraint's literal type is the
incompatible/unknown-literal-type error. -/
def hoverContentForExpr : Expr → ExprConstraints → Except String MarkupContent
  | .templateExpr parts _, constraints =>
      match parts with
      | [p] => hoverContentForExpr p constraints
      | _ => .error "unsupported expression (*hclsyntax.TemplateExpr)"
  | .templateWrapExpr w _, constraints => hoverContentForExpr w constraints
  | .tupleConsExpr _ _, constraints =>
      (match listTypeLiteralConstraint constraints with
       | some lve => hoverContentForValueAndType (.nullVal lve.type) lve.type
       | none =>
         match setTypeLiteralConstraint constraints with
         | some lve => hoverContentForValueAndType (.nullVal lve.type) lve.type
         | none =>
           match tupleTypeLiteralConstraint constraints with
           | some lve => hoverContentForValueAndType (.nullVal lve.type) lve.type
           | none => .error "unsupported expression (*hclsyntax.TupleConsExpr)")
  | .objectConsExpr _ _, constraints =>
      (match objectTypeLiteralConstraint constraints with
       | some lve => hoverContentForValueAndType (.nullVal lve.type) lve.type
       | none =>
         match mapTypeLiteralConstraint constraints with
         | some lve => hoverContentForValueAndType (.nullVal lve.type) lve.type
         | none => .error "unsupported expression (*hclsyntax.ObjectConsExpr)")
  | .literalValueExpr v _, constraints =>
      (match literalExprForType v.typeOf constraints with
       | some lve => hoverContentForValueAndType v lve.type
       | none => .error ("no schema for literal type " ++ goQuote v.typeOf.friendlyName))
  | .otherExpr _, _ => .error "unsupported expression"

/-! ## The semantic token emitter (`decoder/semantic_tokens.go`). -/

/-- The modifier list both the attribute and the block arms build: the
"dependent" modifier when the enclosing body was reached through a
dependent schema, then "deprecated" when the schema says so. -/
def tokenModifiers (isDependent isDeprecated : Bool) :
    List SemanticTokenModifier :=
  (if isDependent then [.dependent] else [])
    ++ (if isDeprecated then [.deprecated] else [])

/-- `tokensForLiteralValueExpr`: one value token for a primitive literal,
never carrying modifiers. -/
def tokensForLiteralValueExpr (expr : Expr) (valType : CtyType) :
    List SemanticToken :=
  match valType with
  | .bool => [{ tokenType := .boolTok, modifiers := [], range := expr.range }]
  | .string => [{ tokenType := .stringTok, modifiers := [], range := expr.range }]
  | .number => [{ tokenType := .numberTok, modifiers := [], range := expr.range }]
  | _ => []

mutual
/-- `tokensForConstrainedExpression`: the token path of the expression
constraint engine; the constraint selection mirrors
`hoverContentForExpr`, and expressions with no matching constraint yield
no tokens (never an error). -/
def tokensForConstrainedExpression : Expr → ExprConstraints → List SemanticToken
  | .templateExpr parts _, constraints =>
      (match parts with
       | [p] => tokensForConstrainedExpression p constraints
       | _ => [])
  | .templateWrapExpr w _, constraints =>
      tokensForConstrainedExpression w constraints
  | .tupleConsExpr exprs _, constraints =>
      (match listTypeLiteralConstraint constraints with
       | some lve => tokensForTupleConsExpr exprs lve.type 0
       | none =>
         match setTypeLiteralConstraint constraints with
         | some lve => tokensForTupleConsExpr exprs lve.type 0
         | none =>
           match tupleTypeLiteralConstraint constraints with
           | some lve => tokensForTupleConsExpr exprs lve.type 0
           | none => [])
  | .objectConsExpr items _, constraints =>
      (match objectTypeLiteralConstraint constraints with
       | some lve => tokensForObjectConsExpr items lve.type
       | none =>
         match mapTypeLiteralConstraint constraints with
         | some lve => tokensForObjectConsExpr items lve.type
         | none => [])
  | e@(.literalValueExpr v _), constraints =>
      (match literalExprForType v.typeOf constraints with
       | some _ => tokenForTypedExpression e v.typeOf
       | none => [])
  | .otherExpr _, _ => []
termination_by e _ => (sizeOf e, 1)

/-- `tokenForTypedExpression`. -/
def tokenForTypedExpression : Expr → CtyType → List SemanticToken
  | e@(.literalValueExpr _ _), valType =>
      if valType.isPrimitiveType then tokensForLiteralValueExpr e valType else []
  | .objectConsExpr items _, valType => tokensForObjectConsExpr items valType
  | .tupleConsExpr exprs _, valType => tokensForTupleConsExpr exprs valType 0
  | _, _ => []
termination_by e _ => (sizeOf e, 0)

/-- `tokensForObjectConsExpr` (taking the construction's item list): the
object-typed walk, then the map-typed walk. -/
def tokensForObjectConsExpr (items : List (Expr × Expr))
    (exprType : CtyType) : List SemanticToken :=
  (if exprType.isObjectType then tokensForObjectItems items exprType else [])
    ++ (if exprType.isMapType then tokensForMapItems items exprType.elementType else [])
termination_by (sizeOf items, 1)

/-- The object-typed item loop of `tokensForObjectConsExpr`: a key token
per wholly-known string key found in the object type's attributes,
recursing into the value; unknown attributes are skipped. -/
def tokensForObjectItems : List (Expr × Expr) → CtyType → List SemanticToken
  | [], _ => []
  | (keyExpr, valueExpr) :: rest, exprType =>
      (if keyExpr.value.isWhollyKnown && CtyType.beq keyExpr.value.typeOf .string then
         match exprType.attributeType keyExpr.value.asString with
         | none => []
         | some valType =>
             { tokenType := .objectKey, modifiers := [], range := keyExpr.range }
               :: tokenForTypedExpression valueExpr valType
       else [])
      ++ tokensForObjectItems rest exprType
termination_by items _ => (sizeOf items, 0)

/-- The map-typed item loop of `tokensForObjectConsExpr`: a map-key token
per item, recursing into the value at the map's element type. -/
def tokensForMapItems : List (Expr × Expr) → CtyType → List SemanticToken
  | [], _ => []
  | (keyExpr, valueExpr) :: rest, elemType =>
      ({ tokenType := .mapKey, modifiers := [], range := keyExpr.range }
        :: tokenForTypedExpression valueExpr elemType)
      ++ tokensForMapItems rest elemType
termination_by items _ => (sizeOf items, 0)

/-- `tokensForTupleConsExpr` (taking the construction's expression list
and the running element index). -/
def tokensForTupleConsExpr : List Expr → CtyType → Nat → List SemanticToken
  | [], _, _ => []
  | e :: rest, exprType, i =>
      (let elemType :=
        if exprType.isListType then exprType.elementType
        else if exprType.isSetType then exprType.elementType
        else if exprType.isTupleType then exprType.tupleElementType i
        else .nil
       tokenForTypedExpression e elemType)
      ++ tokensForTupleConsExpr rest exprType (i + 1)
termination_by es _ _ => (sizeOf es, 0)
end

/-- The label loop of `tokensForBody`: one block-label token per label
range whose index is within the declared label schemas (`i+1 >
len(Labels)` skips the label, and every later index as well); a label
token carries the "dependent" modifier iff its label schema is a
dependency key. -/
def tokensForLabels : List Range → List LabelSchema → List SemanticToken
  | [], _ => []
  | _ :: _, [] => []
  | labelRange :: rs, labelSchema :: ls =>
      { tokenType := .blockLabel,
        modifiers := if labelSchema.isDepKey then [.dependent] else [],
        range := labelRange }
        :: tokensForLabels rs ls

/-- The attribute loop of `tokensForBody`: unknown attributes (no schema
entry and no fallback) are silently skipped; recognized ones yield one
name token plus their value expression's tokens. -/
def tokensForAttributes : List Attribute → BodySchema → Bool → List SemanticToken
  | [], _, _ => []
  | attr :: rest, bs, isDependent =>
      (match bs.lookupAttr attr.name with
       | none => []
       | some attrSchema =>
           { tokenType := .attrName,
             modifiers := tokenModifiers isDependent attrSchema.isDeprecated,
             range := attr.nameRange }
             :: tokensForConstrainedExpression attr.expr attrSchema.expr)
      ++ tokensForAttributes rest bs isDependent

mutual
/-- `tokensForBody`: the unconditional full traversal; a nil body schema
yields no tokens. -/
def tokensForBody : Body → Option BodySchema → Bool → List SemanticToken
  | _, none, _ => []
  | .mk attrs blocks _, some bs, isDependent =>
      tokensForAttributes attrs bs isDependent
        ++ tokensForBlocks blocks bs isDependent
termination_by b _ _ => sizeOf b

/-- The block loop of `tokensForBody`: unknown blocks are silently
skipped; recognized ones yield a type token, label tokens, the nested
body's tokens against the block's own body schema, and — when the
dependency keys match an entry — the nested body's tokens against the
dependent body schema with `isDependent` set. -/
def tokensForBlocks : List Block → BodySchema → Bool → List SemanticToken
  | [], _, _ => []
  | block@(.mk _ _ blockBody _ _ _) :: rest, bs, isDependent =>
      (match bs.lookupBlock block.type with
       | none => []
       | some blockSchema =>
           { tokenType := .blockType,
             modifiers := tokenModifiers isDependent blockSchema.isDeprecated,
             range := block.typeRange }
             :: (tokensForLabels block.labelRanges blockSchema.labels
                 ++ tokensForBody blockBody blockSchema.body false
                 ++ (match blockSchema.dependentBodySchema
                       (dependencyKeysFromBlock block blockSchema) with
                     | some depSchema => tokensForBody blockBody (some depSchema) true
                     | none => [])))
      ++ tokensForBlocks rest bs isDependent
termination_by bl _ _ => sizeOf bl
end

/-! ## Decoder state and entry points. -/

/-- The decoder's error taxonomy (`NoSchemaError`, `FileNotFoundError`,
`UnknownFileFormatError`, `PositionalError`). -/
inductive DecoderError where
  | fileNotFound (filename : String)
  | unknownFileFormat (filename : String)
  | noSchema
  | positional (filename : String) (pos : Pos) (msg : String)
deriving DecidableEq, Repr

/-- A loaded file: `some body` when the parsed body is an
`hclsyntax.Body`, `none` for any other (degenerate) body shape. -/
abbrev HclFile := Option Body

/-- `Decoder`: the document store and the installed root schema.  The
reader/writer mutexes guarding them are elided (queries here are pure
functions of the state). -/
structure Decoder where
  files : List (String × HclFile) := []
  rootSchema : Option BodySchema := none

/-- Modelled from the spec: `Decoder.fileByName` is not under `src/`;
lookup by document name, failing with the file-not-found error for
unregistered names. -/
def Decoder.fileByName (d : Decoder) (filename : String) :
    Except DecoderError HclFile :=
  match d.files.find? (fun p => p.1 == filename) with
  | some p => .ok p.2
  | none => .error (.fileNotFound filename)

/-- Modelled from the spec: `Decoder.bodyForFileAndPos` is not under
`src/`; a document whose body is not an `hclsyntax.Body` is the
unknown-file-format error. -/
def bodyForFileAndPos (filename : String) (f : HclFile) :
    Except DecoderError Body :=
  match f with
  | some body => .ok body
  | none => .error (.unknownFileFormat filename)

/-- The whole-token-list sort of `SemanticTokensInFile`: ascending by the
byte offset of each token's range start. -/
def sortTokens (tokens : List SemanticToken) : List SemanticToken :=
  tokens.mergeSort (fun a b => a.range.start.byte ≤ b.range.start.byte)

/-- `Decoder.SemanticTokensInFile`: resolve the document, then — with no
root schema installed — return the empty token list (no error);
otherwise emit tokens for the root body and sort them. -/
def Decoder.SemanticTokensInFile (d : Decoder) (filename : String) :
    Except DecoderError (List SemanticToken) := do
  let f ← d.fileByName filename
  let body ← bodyForFileAndPos filename f
  match d.rootSchema with
  | none => .ok []
  | some rootSchema => .ok (sortTokens (tokensForBody body (some rootSchema) false))

/-! ## The hover path (`decoder/hover.go`). -/

/-- Modelled from the spec: `detailForAttribute` is not under `src/`;
the synthesized detail text derived from the attribute's constraints and
deprecation flag. -/
def detailForAttribute (s : AttributeSchema) : String :=
  let types := String.intercalate ", "
    ((s.expr.literalValueTypes).map CtyType.friendlyName)
  if s.isDeprecated then types ++ " (deprecated)" else types

/-- Modelled from the spec: `detailForBlock` is not under `src/`; the
synthesized detail text derived from the block schema. -/
def detailForBlock (s : BlockSchema) : String :=
  if s.isDeprecated then "Block (deprecated)" else "Block"

/-- A resolved documentation URL (`net/url.URL` as the hover path reads
it: hostname and full string). -/
structure URL where
  hostname : String
  urlString : String

/-- Modelled from the spec: `Decoder.docsURL` is not under `src/`; it
resolves a documentation-link template to a URL (the UTM query
parameters it appends are elided), failing on a template with no
scheme. -/
def docsURL (rawURL : String) (_context : String) : Except String URL :=
  match rawURL.splitOn "://" with
  | [_, rest] => .ok { hostname := (rest.splitOn "/").headD "", urlString := rawURL }
  | _ => .error "invalid URL"

/-- Modelled from the spec: `isPosOutsideBody` is not under `src/`; true
when the position lies outside every recognized sub-range of the block
(type keyword, labels, nested body). -/
def isPosOutsideBody (block : Block) (pos : Pos) : Bool :=
  !(block.typeRange.containsPos pos)
    && block.labelRanges.all (fun r => !(r.containsPos pos))
    && !(block.body.srcRange.containsPos pos)

/-- The empty `schema.BodySchema`. -/
def emptyBodySchema : BodySchema := .mk [] [] none "" (PlainText "") none

/-- Modelled from the spec: `mergeBlockBodySchemas` is not under `src/`;
merge the block's own body schema with a matching dependent body schema,
dependent entries taking precedence on name collision. -/
def mergeBlockBodySchemas (block : Block) (bSchema : BlockSchema) : BodySchema :=
  let own := bSchema.body.getD emptyBodySchema
  match bSchema.dependentBodySchema (dependencyKeysFromBlock block bSchema) with
  | none => own
  | some dep =>
      .mk (dep.attributes ++ own.attributes.filter
             (fun p => (dep.attributes.find? (fun q => q.1 == p.1)).isNone))
          (dep.blocks ++ own.blocks.filter
             (fun p => (dep.blocks.find? (fun q => q.1 == p.1)).isNone))
          (match dep.anyAttribute with
           | some a => some a
           | none => own.anyAttribute)
          own.detail own.description own.docsLink

/-- `hoverContentForAttribute`. -/
def hoverContentForAttribute (name : String) (s : AttributeSchema) :
    MarkupContent :=
  let value := "**" ++ name ++ "** _" ++ detailForAttribute s ++ "_"
  let value :=
    if s.description.value != "" then value ++ "\n\n" ++ s.description.value
    else value
  { kind := .markdownKind, value := value }

/-- `hoverContentForBlock`. -/
def hoverContentForBlock (bType : String) (s : BlockSchema) : MarkupContent :=
  let value := "**" ++ bType ++ "** _" ++ detailForBlock s ++ "_"
  let value :=
    if s.description.value != "" then value ++ "\n\n" ++ s.description.value
    else value
  { kind := .markdownKind, value := value }

/-- The shared tail of `hoverContentForLabel`: the plain label schema's
rendering — the raw (quoted) label text, plus the label schema's
name/description when present. -/
def hoverContentForLabelFallback (value : String) (labelSchema : LabelSchema) :
    MarkupContent :=
  let content := goQuote value
  let content :=
    if labelSchema.name != "" then content ++ " (" ++ labelSchema.name ++ ")"
    else content
  let content := content.trim
  let content :=
    if labelSchema.description.value != "" then
      content ++ "\n\n" ++ labelSchema.description.value
    else content
  Markdown content

/-- `Decoder.hoverContentForLabel`: prefer the matching dependent body
schema's detail/description/doc-link when the label is a dependency key,
falling back to the plain label schema's rendering. -/
def hoverContentForLabel (_d : Decoder) (i : Nat) (block : Block)
    (bSchema : BlockSchema) : MarkupContent :=
  let value := block.labels.getD i ""
  let labelSchema := bSchema.labels.getD i {}
  if labelSchema.isDepKey then
    match bSchema.dependentBodySchema (dependencyKeysFromBlock block bSchema) with
    | some bs =>
        let content := "`" ++ value ++ "`"
        let content :=
          if bs.detail != "" then content ++ " " ++ bs.detail
          else if labelSchema.name != "" then content ++ " " ++ labelSchema.name
          else content
        let content :=
          if bs.description.value != "" then content ++ "\n\n" ++ bs.description.value
          else if labelSchema.description.value != "" then
            content ++ "\n\n" ++ labelSchema.description.value
          else content
        let content :=
          match bs.docsLink with
          | some link =>
              match docsURL link.url "documentHover" with
              | .ok u =>
                  content ++ "\n\n[`" ++ value ++ "` on " ++ u.hostname ++ "]("
                    ++ u.urlString ++ ")"
              | .error _ => content
          | none => content
        Markdown content
    | none => hoverContentForLabelFallback value labelSchema
  else hoverContentForLabelFallback value labelSchema

/-- The attribute loop of `hoverAtPos`: `some result` when an attribute
containing the position produces a terminal answer (hover data or a
positional error), `none` when the loop falls through. -/
def hoverOverAttributes (filename : String) (bs : BodySchema) (pos : Pos) :
    List Attribute → Option (Except DecoderError (Option HoverData))
  | [] => none
  | attr :: rest =>
      if attr.srcRange.containsPos pos then
        match bs.lookupAttr attr.name with
        | none =>
            some (.error (.positional filename pos
              ("unknown attribute " ++ goQuote attr.name)))
        | some aSchema =>
            if attr.nameRange.containsPos pos then
              some (.ok (some { content := hoverContentForAttribute attr.name aSchema,
                                range := attr.srcRange }))
            else if attr.expr.range.containsPos pos then
              some (match hoverContentForExpr attr.expr aSchema.expr with
                    | .error msg => .error (.positional filename pos msg)
                    | .ok content => .ok (some { content := content,
                                                 range := attr.expr.range }))
            else hoverOverAttributes filename bs pos rest
      else hoverOverAttributes filename bs pos rest

/-- The label loop of `hoverAtPos`: at the first label range containing
the position, a label index at or beyond the declared label schemas is
the "unexpected label" positional error; otherwise the label's hover
content. -/
def hoverLabels (d : Decoder) (filename : String) (block : Block)
    (bSchema : BlockSchema) (pos : Pos) :
    Nat → List Range → Option (Except DecoderError (Option HoverData))
  | _, [] => none
  | i, labelRange :: rest =>
      if labelRange.containsPos pos then
        if bSchema.labels.length < i + 1 then
          some (.error (.positional filename pos
            ("unexpected label (" ++ toString i ++ ") "
              ++ goQuote (block.labels.getD i ""))))
        else
          some (.ok (some { content := hoverContentForLabel d i block bSchema,
                            range := labelRange }))
      else hoverLabels d filename block bSchema pos (i + 1) rest

mutual
/-- `Decoder.hoverAtPos`: a nil body schema yields no result (soft
"nothing here"); otherwise try the attributes, then the blocks, and
finally the "position outside of any attribute name, value or block"
positional error. -/
def hoverAtPos (d : Decoder) : Body → Option BodySchema → Pos →
    Except DecoderError (Option HoverData)
  | _, none, _ => .ok none
  | body@(.mk attrs blocks _), some bs, pos =>
      let filename := body.srcRange.filename
      (match hoverOverAttributes filename bs pos attrs with
       | some r => r
       | none =>
           match hoverOverBlocks d filename bs pos blocks with
           | some r => r
           | none => .error (.positional filename pos
               "position outside of any attribute name, value or block"))
termination_by b _ _ => sizeOf b

/-- The block loop of `hoverAtPos`: unknown block type and
position-outside-body are positional errors; a position in the nested
body recurses against the merged (own + dependent) body schema. -/
def hoverOverBlocks (d : Decoder) (filename : String) (bs : BodySchema)
    (pos : Pos) : List Block → Option (Except DecoderError (Option HoverData))
  | [] => none
  | block@(.mk _ _ blockBody _ _ _) :: rest =>
      if block.srcRange.containsPos pos then
        match bs.lookupBlock block.type with
        | none =>
            some (.error (.positional filename pos
              ("unknown block type " ++ goQuote block.type)))
        | some bSchema =>
            if block.typeRange.containsPos pos then
              some (.ok (some { content := hoverContentForBlock block.type bSchema,
                                range := block.typeRange }))
            else
              match hoverLabels d filename block bSchema pos 0 block.labelRanges with
              | some r => some r
              | none =>
                  if isPosOutsideBody block pos then
                    some (.error (.positional filename pos
                      ("position outside of " ++ goQuote block.type ++ " body")))
                  else if blockBody.srcRange.containsPos pos then
                    some (hoverAtPos d blockBody
                      (some (mergeBlockBodySchemas block bSchema)) pos)
                  else hoverOverBlocks d filename bs pos rest
      else hoverOverBlocks d filename bs pos rest
termination_by bl => sizeOf bl
end

/-- `Decoder.HoverAtPos`: resolve the document, fail with the no-schema
error when no root schema is installed, then resolve the position. -/
def Decoder.HoverAtPos (d : Decoder) (filename : String) (pos : Pos) :
    Except DecoderError (Option HoverData) := do
  let f ← d.fileByName filename
  let rootBody ← bodyForFileAndPos filename f
  match d.rootSchema with
  | none => .error .noSchema
  | some rootSchema => hoverAtPos d rootBody (some rootSchema) pos

/-! ## The candidate generator (`decoder/expression_candidates.go`). -/

mutual
/-- `snippetForAttrType`: the tab-stop snippet skeleton for a type,
threading sequential placeholder indices. -/
def snippetForAttrType (placeholder : Nat) (attrType : CtyType) : String :=
  match attrType with
  | .string => "\"$\x7b" ++ toString placeholder ++ ":value\x7d\""
  | .bool => "$\x7b" ++ toString placeholder ++ ":false\x7d"
  | .number => "$\x7b" ++ toString placeholder ++ ":1\x7d"
  | .dynamicPseudoType => "$\x7b" ++ toString placeholder ++ "\x7d"
  | .map elem =>
      "\x7b\n  \"$\x7b1:key\x7d\" = " ++ snippetForAttrType (placeholder + 1) elem
        ++ "\n\x7d"
  | .list elem => "[ " ++ snippetForAttrType placeholder elem ++ " ]"
  | .set elem => "[ " ++ snippetForAttrType placeholder elem ++ " ]"
  | .object attrs => "\x7b\n" ++ snippetForObjectAttrs placeholder attrs ++ "\x7d"
  | .tuple [el] => "[ " ++ snippetForAttrType placeholder el ++ " ]"
  | .tuple elTypes => "[\n" ++ snippetForTupleTypes placeholder elTypes ++ "]"
  | _ => ""
termination_by (sizeOf attrType, 1)

/-- The object loop of `snippetForAttrType`: one `name = snippet` line
per attribute (canonical order), bumping the placeholder after each. -/
def snippetForObjectAttrs (placeholder : Nat) :
    List (String × CtyType) → String
  | [] => ""
  | (name, valType) :: rest =>
      "  " ++ name ++ " = " ++ snippetForAttrType placeholder valType ++ "\n"
        ++ snippetForObjectAttrs (placeholder + 1) rest
termination_by l => (sizeOf l, 0)

/-- The multi-element tuple loop of `snippetForAttrType`: the
placeholder is bumped before each element. -/
def snippetForTupleTypes (placeholder : Nat) : List CtyType → String
  | [] => ""
  | el :: rest =>
      snippetForAttrType (placeholder + 1) el
        ++ snippetForTupleTypes (placeholder + 1) rest
termination_by l => (sizeOf l, 0)
end

/-- `snippetForExprContraints` (sic): the snippet for the first
constraint, when it is a literal type constraint. -/
def snippetForExprContraints (placeholder : Nat) (ec : ExprConstraints) :
    String :=
  match ec with
  | .literalType lt :: _ => snippetForAttrType placeholder lt.type
  | [] => ""

mutual
/-- `labelForType`: the compact human-readable shape summary used as a
structural candidate's display label. -/
def labelForType (attrType : CtyType) : String :=
  match attrType with
  | .map elem => "\x7b \"key\" = " ++ labelForType elem ++ " \x7d"
  | .list elem => "[ " ++ labelForType elem ++ " ]"
  | .set elem => "[ " ++ labelForType elem ++ " ]"
  | .tuple elTypes =>
      (match elTypes with
       | el1 :: el2 :: _ :: _ =>
           "[ " ++ labelForType el1 ++ " , " ++ labelForType el2 ++ ", ... ]"
       | [el1, el2] => "[ " ++ labelForType el1 ++ " , " ++ labelForType el2 ++ " ]"
       | [el1] => "[ " ++ labelForType el1 ++ " ]"
       | [] => "[ ]")
  | .object attrs =>
      (match attrs with
       | (n1, t1) :: (n2, t2) :: _ :: _ =>
           "\x7b " ++ n1 ++ " = " ++ labelForType t1 ++ ", " ++ n2 ++ " = "
             ++ labelForType t2 ++ " … \x7d"
       | [(n1, t1), (n2, t2)] =>
           "\x7b " ++ n1 ++ " = " ++ labelForType t1 ++ ", " ++ n2 ++ " = "
             ++ labelForType t2 ++ " \x7d"
       | [(n1, t1)] => "\x7b " ++ n1 ++ " = " ++ labelForType t1 ++ " \x7d"
       | [] => "\x7b \x7d")
  | _ => attrType.friendlyName
termination_by sizeOf attrType
end

mutual
/-- `newTextForType`: the fully-expanded insertion-text skeleton
recursively generated per element/attribute type. -/
def newTextForType (attrType : CtyType) : String :=
  match attrType with
  | .string => "\"\""
  | .bool => "false"
  | .number => "1"
  | .dynamicPseudoType => ""
  | .map elem => "\x7b\n  \"key\" = " ++ newTextForType elem ++ "\n\x7d"
  | .list elem => "[ " ++ newTextForType elem ++ " ]"
  | .set elem => "[ " ++ newTextForType elem ++ " ]"
  | .object attrs => "\x7b\n" ++ newTextForObjectAttrs attrs ++ "\x7d"
  | .tuple [el] => "[ " ++ newTextForType el ++ " ]"
  | .tuple elTypes => "[\n" ++ newTextForTupleTypes elTypes ++ "]"
  | _ => ""
termination_by (sizeOf attrType, 1)

/-- The object loop of `newTextForType`. -/
def newTextForObjectAttrs : List (String × CtyType) → String
  | [] => ""
  | (name, valType) :: rest =>
      "  " ++ name ++ " = " ++ newTextForType valType ++ "\n"
        ++ newTextForObjectAttrs rest
termination_by l => (sizeOf l, 0)

/-- The multi-element tuple loop of `newTextForType` (elements
concatenated with no separator, as the source does). -/
def newTextForTupleTypes : List CtyType → String
  | [] => ""
  | el :: rest => newTextForType el ++ newTextForTupleTypes rest
termination_by l => (sizeOf l, 0)
end

/-- `valuesToCandidates`: one literal candidate per boolean, string or
number value (other value types are skipped). -/
def valuesToCandidates : List CtyValue → Range → List Candidate
  | [], _ => []
  | val :: rest, editRng =>
      (match val.typeOf with
       | .bool =>
           let text := if val.isTrue then "true" else "false"
           [{ label := text
              detail := val.typeOf.friendlyName
              description := PlainText val.typeOf.friendlyName
              kind := .literalValueCandidateKind
              textEdit := { newText := text
                            snippet := "$\x7b1:" ++ text ++ "\x7d"
                            range := editRng } }]
       | .string =>
           [{ label := val.asString
              detail := val.typeOf.friendlyName
              description := PlainText val.typeOf.friendlyName
              kind := .literalValueCandidateKind
              textEdit := { newText := goQuote val.asString
                            snippet := "$\x7b1:" ++ goQuote val.asString ++ "\x7d"
                            range := editRng } }]
       | .number =>
           let numberAsStr := val.numString
           [{ label := numberAsStr
              detail := val.typeOf.friendlyName
              description := PlainText val.typeOf.friendlyName
              kind := .literalValueCandidateKind
              textEdit := { newText := numberAsStr
                            snippet := "$\x7b1:" ++ numberAsStr ++ "\x7d"
                            range := editRng } }]
       | _ => [])
      ++ valuesToCandidates rest editRng

/-- `typeToCandidates`: two literal candidates for a boolean constraint,
none for any other primitive, and one structural candidate for every
compound type. -/
def typeToCandidates (ofType : CtyType) (editRng : Range) : List Candidate :=
  if CtyType.beq ofType .bool then
    valuesToCandidates [.boolVal false, .boolVal true] editRng
  else if ofType.isPrimitiveType then []
  else
    [{ label := labelForType ofType
       detail := ofType.friendlyName
       description := { value := "", kind := .plainTextKind }
       kind := .literalValueCandidateKind
       textEdit := { newText := newTextForType ofType
                     snippet := snippetForAttrType 1 ofType
                     range := editRng } }]

/-- `constraintToCandidates`. -/
def constraintToCandidates (constraint : ExprConstraint) (editRng : Range) :
    List Candidate :=
  match constraint with
  | .literalType lt => typeToCandidates lt.type editRng

/-- `Decoder.expressionCandidatesAtPos`: every constraint's candidates in
order, and the list is always marked complete (the Go error result is
always nil). -/
def expressionCandidatesAtPos (constraints : ExprConstraints)
    (editRng : Range) : Candidates :=
  { list := NewCandidates.list
      ++ constraints.flatMap (fun c => constraintToCandidates c editRng)
    isComplete := true }

/-- `constraintsAtPos`: constraints apply only at a literal expression
whose value is not wholly known (an edit placeholder); the edit range
then collapses to the expression's start.  Every other expression yields
no constraints. -/
def constraintsAtPos (expr : Expr) (constraints : ExprConstraints) :
    ExprConstraints × Range :=
  match expr with
  | .literalValueExpr v rng =>
      if !v.isWhollyKnown then
        (constraints,
         { filename := rng.filename, start := rng.start, endPos := rng.start })
      else ([], expr.range)
  | _ => ([], expr.range)

/-- `Decoder.attrValueCandidatesAtPos` (the Go error result is always
nil). -/
def attrValueCandidatesAtPos (attr : Attribute) (s : AttributeSchema)
    (_pos : Pos) : Candidates :=
  let cr := constraintsAtPos attr.expr s.expr
  if cr.1.length > 0 then expressionCandidatesAtPos cr.1 cr.2
  else ZeroCandidates

/-! ## Claim-side definitions: the specification's phrasings, stated
independently of the source loops so the theorems can compare the two. -/

/-- "The first constraint whose declared type satisfies `p`", via
`List.find?`. -/
def firstLiteralConstraint (p : CtyType → Bool) (cs : ExprConstraints) :
    Option LiteralTypeExpr :=
  match cs.find? (fun c => match c with | .literalType lt => p lt.type) with
  | some (.literalType lt) => some lt
  | none => none

/-- The value-token types the expression constraint engine can emit
(everything that is not a name/type/label token). -/
def isExprTokenType : SemanticTokenType → Bool
  | .stringTok | .numberTok | .boolTok | .objectKey | .mapKey => true
  | _ => false

mutual
/-- No block recognized anywhere in the body (against the given schema)
has dependency keys matching a dependent body schema, so the token
emitter performs a single pass over every body. -/
def noDepBody : Body → Option BodySchema → Bool
  | _, none => true
  | .mk _ blocks _, some bs => noDepBlocks blocks bs
termination_by b _ => sizeOf b

/-- `noDepBody` over a body's block list. -/
def noDepBlocks : List Block → BodySchema → Bool
  | [], _ => true
  | block@(.mk _ _ blockBody _ _ _) :: rest, bs =>
      (match bs.lookupBlock block.type with
       | none => true
       | some bSchema =>
           (bSchema.dependentBodySchema
             (dependencyKeysFromBlock block bSchema)).isNone
             && noDepBody blockBody bSchema.body)
      && noDepBlocks rest bs
termination_by bl _ => sizeOf bl
end

mutual
/-- Claim C2's expected token counts for a body against a schema:
(schema-recognized attributes, schema-recognized blocks, labels whose
index is within the declared label schemas), counting one token each and
descending into recognized blocks' bodies. -/
def specTokenCounts : Body → Option BodySchema → Nat × Nat × Nat
  | _, none => (0, 0, 0)
  | .mk attrs blocks _, some bs =>
      let a := attrs.countP (fun attr => (bs.lookupAttr attr.name).isSome)
      let rest := specTokenCountsBlocks blocks bs
      (a + rest.1, rest.2.1, rest.2.2)
termination_by b _ => sizeOf b

/-- `specTokenCounts` over a body's block list. -/
def specTokenCountsBlocks : List Block → BodySchema → Nat × Nat × Nat
  | [], _ => (0, 0, 0)
  | block@(.mk _ _ blockBody _ _ _) :: rest, bs =>
      let r := specTokenCountsBlocks rest bs
      (match bs.lookupBlock block.type with
       | none => r
       | some bSchema =>
           let inner := specTokenCounts blockBody bSchema.body
           (inner.1 + r.1, 1 + inner.2.1 + r.2.1,
             min block.labelRanges.length bSchema.labels.length
               + inner.2.2 + r.2.2))
termination_by bl _ => sizeOf bl
end

/-- The zero range carried by expressions produced away from any source
file (such as the parse of generated insertion text). -/
def noRange : Range :=
  { filename := "", start := ⟨0, 0, 0⟩, endPos := ⟨0, 0, 0⟩ }

mutual
/-- Modelled from the spec: the external HCL parser (an out-of-scope
collaborator) applied to `newTextForType`'s output.  A skeleton opening
with `[` parses to a sequence construction, one opening with `\x7b` to a
keyed construction, scalar skeletons to literals; keys parse to string
values as the token emitter evaluates them. -/
def skeletonExprForType : CtyType → Expr
  | .string => .literalValueExpr (.str "") noRange
  | .bool => .literalValueExpr (.boolVal false) noRange
  | .number => .literalValueExpr (.num 1) noRange
  | .map elem =>
      .objectConsExpr
        [(.literalValueExpr (.str "key") noRange, skeletonExprForType elem)]
        noRange
  | .list elem => .tupleConsExpr [skeletonExprForType elem] noRange
  | .set elem => .tupleConsExpr [skeletonExprForType elem] noRange
  | .object attrs => .objectConsExpr (skeletonObjectItems attrs) noRange
  | .tuple elTypes => .tupleConsExpr (skeletonTupleExprs elTypes) noRange
  | _ => .otherExpr noRange
termination_by t => (sizeOf t, 1)

/-- The object-attribute items of a skeleton parse. -/
def skeletonObjectItems : List (String × CtyType) → List (Expr × Expr)
  | [] => []
  | (name, valType) :: rest =>
      (.literalValueExpr (.str name) noRange, skeletonExprForType valType)
        :: skeletonObjectItems rest
termination_by l => (sizeOf l, 0)

/-- The tuple-element expressions of a skeleton parse. -/
def skeletonTupleExprs : List CtyType → List Expr
  | [] => []
  | el :: rest => skeletonExprForType el :: skeletonTupleExprs rest
termination_by l => (sizeOf l, 0)
end

/-- A compound (non-primitive, non-dynamic) type: list, set, tuple, map
or object. -/
def CtyType.isCompound (t : CtyType) : Bool :=
  t.isListType || t.isSetType || t.isTupleType || t.isMapType || t.isObjectType

/-- A single-line range of the concrete example documents (byte offsets
`a` to `b`; columns are 1-based). -/
def exampleRange (a b : Nat) : Range :=
  { filename := "test.tf", start := ⟨1, a + 1, a⟩, endPos := ⟨1, b + 1, b⟩ }

/-- Example dependent body schema: `instance_type: string` (the
`aws_instance` variant's body). -/
def exampleDepBodySchema : BodySchema :=
  .mk [("instance_type", { expr := LiteralTypeOnly .string })] [] none
    "" (PlainText "") none

/-- Example `resource` block schema: labels `type` (a dependency key)
and `name`, no own body schema, one dependent body schema keyed on
label 0 = `"aws_instance"`. -/
def exampleResourceSchema : BlockSchema :=
  .mk [{ name := "type", isDepKey := true }, { name := "name" }] none
    [(NewSchemaKey { labels := [{ index := 0, value := "aws_instance" }] },
      exampleDepBodySchema)]
    false "" (PlainText "") none

/-- Example block instance:
`resource "aws_instance" "beta" { instance_type = "t2.micro" }`. -/
def exampleResourceBlock : Block :=
  .mk "resource" ["aws_instance", "beta"]
    (.mk [{ name := "instance_type"
            expr := .literalValueExpr (.str "t2.micro") (exampleRange 51 61)
            nameRange := exampleRange 35 48
            srcRange := exampleRange 35 61 }] [] (exampleRange 31 63))
    (exampleRange 0 8) [exampleRange 9 23, exampleRange 24 30]
    (exampleRange 0 63)

/-- Example root schema holding the `resource` block schema. -/
def exampleRootSchema : BodySchema :=
  .mk [] [("resource", exampleResourceSchema)] none "" (PlainText "") none

/-- A body schema declaring `a: string`, used below both as a block's
own body schema and as its dependent body schema, so the attribute is
recognized by both tokenization passes. -/
def overlapBodySchema : BodySchema :=
  .mk [("a", { expr := LiteralTypeOnly .string })] [] none "" (PlainText "") none

/-- Block schema whose own body schema and dependent body schema (keyed
on label 0 = `"x"`) both declare the same attribute. -/
def overlapBlockSchema : BlockSchema :=
  .mk [{ name := "type", isDepKey := true }] (some overlapBodySchema)
    [(NewSchemaKey { labels := [{ index := 0, value := "x" }] },
      overlapBodySchema)]
    false "" (PlainText "") none

/-- Block instance `b "x" { a = "v" }` matching the dependent key. -/
def overlapBlock : Block :=
  .mk "b" ["x"]
    (.mk [{ name := "a"
            expr := .literalValueExpr (.str "v") (exampleRange 13 16)
            nameRange := exampleRange 9 10, srcRange := exampleRange 9 16 }]
      [] (exampleRange 7 18))
    (exampleRange 0 1) [exampleRange 2 5] (exampleRange 0 18)

/-- Root schema holding the overlap block schema. -/
def overlapRootSchema : BodySchema :=
  .mk [] [("b", overlapBlockSchema)] none "" (PlainText "") none

/-- Decoder with the overlap document loaded and its schema installed. -/
def overlapDecoder : Decoder :=
  { files := [("test.tf", some (.mk [] [overlapBlock] (exampleRange 0 18)))]
    rootSchema := some overlapRootSchema }

/-- A `module` block schema with one label schema and a body schema
declaring `source: string`; no dependent body schemas. -/
def plainModuleSchema : BlockSchema :=
  .mk [{ name := "name" }]
    (some (.mk [("source", { expr := LiteralTypeOnly .string })] [] none
      "" (PlainText "") none))
    [] false "" (PlainText "") none

/-- Root schema: attribute `count: number` and block `module`. -/
def plainRootSchema : BodySchema :=
  .mk [("count", { expr := LiteralTypeOnly .number })]
    [("module", plainModuleSchema)] none "" (PlainText "") none

/-- Document body: `count = 1` and `module "m" "extra" { source = "./x" }`,
whose second label has no label schema. -/
def plainBody : Body :=
  .mk [{ name := "count"
         expr := .literalValueExpr (.num 1) (exampleRange 8 9)
         nameRange := exampleRange 0 5, srcRange := exampleRange 0 9 }]
    [.mk "module" ["m", "extra"]
      (.mk [{ name := "source"
              expr := .literalValueExpr (.str "./x") (exampleRange 41 46)
              nameRange := exampleRange 32 38, srcRange := exampleRange 32 46 }]
        [] (exampleRange 29 50))
      (exampleRange 10 16) [exampleRange 17 20, exampleRange 21 28]
      (exampleRange 10 50)]
    (exampleRange 0 50)

/-- Decoder with the plain document loaded and its schema installed. -/
def plainDecoder : Decoder :=
  { files := [("test.tf", some plainBody)]
    rootSchema := some plainRootSchema }

/-- Decoder with a loaded, non-degenerate document but no root schema
installed. -/
def noSchemaDecoder : Decoder :=
  { files := [("test.tf", some (.mk [] [] (exampleRange 0 0)))]
    rootSchema := none }

/-- A `module` block instance with two labels (`"m"`, `"extra"`). -/
def twoLabelBlock : Block :=
  .mk "module" ["m", "extra"]
    (.mk [] [] (exampleRange 29 31)) (exampleRange 10 16)
    [exampleRange 17 20, exampleRange 21 28] (exampleRange 10 31)

/-- A root schema declaring `module` with a single label schema, so the
second label of `twoLabelBlock` is beyond the declared label schemas. -/
def oneLabelRootSchema : BodySchema :=
  .mk [] [("module",
    .mk [{ name := "name" }] none [] false "" (PlainText "") none)]
    none "" (PlainText "") none

/-- The document body holding `twoLabelBlock`. -/
def twoLabelBody : Body := .mk [] [twoLabelBlock] (exampleRange 0 40)

/-- Decoder with the two-label document and the one-label schema. -/
def twoLabelDecoder : Decoder :=
  { files := [("test.tf", some twoLabelBody)]
    rootSchema := some oneLabelRootSchema }

/-! ## General lemmas. -/

mutual
/-- `cty.Type.Equals` is exactly propositional equality of types. -/
theorem CtyType.beq_iff : ∀ a b : CtyType, (CtyType.beq a b = true ↔ a = b)
  | .string, b => by cases b <;> simp [CtyType.beq]
  | .bool, b => by cases b <;> simp [CtyType.beq]
  | .number, b => by cases b <;> simp [CtyType.beq]
  | .dynamicPseudoType, b => by cases b <;> simp [CtyType.beq]
  | .nil, b => by cases b <;> simp [CtyType.beq]
  | .list a, b => by
      cases b <;> simp [CtyType.beq]
      exact CtyType.beq_iff a _
  | .set a, b => by
      cases b <;> simp [CtyType.beq]
      exact CtyType.beq_iff a _
  | .map a, b => by
      cases b <;> simp [CtyType.beq]
      exact CtyType.beq_iff a _
  | .tuple a, b => by
      cases b <;> simp [CtyType.beq]
      exact CtyType.beqList_iff a _
  | .object a, b => by
      cases b <;> simp [CtyType.beq]
      exact CtyType.beqAttrs_iff a _

/-- Element-wise `Equals` is equality of tuple element type lists. -/
theorem CtyType.beqList_iff : ∀ a b : List CtyType,
    (CtyType.beqList a b = true ↔ a = b)
  | [], b => by cases b <;> simp [CtyType.beqList]
  | a :: as, b => by
      cases b with
      | nil => simp [CtyType.beqList]
      | cons b bs =>
          simp [CtyType.beqList, CtyType.beq_iff a b, CtyType.beqList_iff as bs]

/-- Entry-wise `Equals` is equality of object attribute lists. -/
theorem CtyType.beqAttrs_iff : ∀ a b : List (String × CtyType),
    (CtyType.beqAttrs a b = true ↔ a = b)
  | [], b => by cases b <;> simp [CtyType.beqAttrs]
  | (n, a) :: as, b => by
      cases b with
      | nil => simp [CtyType.beqAttrs]
      | cons p bs =>
          cases p with
          | mk m b =>
              simp [CtyType.beqAttrs, CtyType.beq_iff a b,
                CtyType.beqAttrs_iff as bs, and_assoc]
end

theorem listTypeLiteralConstraint_eq_first (cs : ExprConstraints) :
    listTypeLiteralConstraint cs = firstLiteralConstraint CtyType.isListType cs := by
  induction cs with
  | nil => rfl
  | cons c rest ih =>
      cases c with
      | literalType lt =>
          by_cases h : lt.type.isListType
          · simp [listTypeLiteralConstraint, firstLiteralConstraint, h]
          · simpa [listTypeLiteralConstraint, firstLiteralConstraint, h] using ih

theorem setTypeLiteralConstraint_eq_first (cs : ExprConstraints) :
    setTypeLiteralConstraint cs = firstLiteralConstraint CtyType.isSetType cs := by
  induction cs with
  | nil => rfl
  | cons c rest ih =>
      cases c with
      | literalType lt =>
          by_cases h : lt.type.isSetType
          · simp [setTypeLiteralConstraint, firstLiteralConstraint, h]
          · simpa [setTypeLiteralConstraint, firstLiteralConstraint, h] using ih

theorem tupleTypeLiteralConstraint_eq_first (cs : ExprConstraints) :
    tupleTypeLiteralConstraint cs = firstLiteralConstraint CtyType.isTupleType cs := by
  induction cs with
  | nil => rfl
  | cons c rest ih =>
      cases c with
      | literalType lt =>
          by_cases h : lt.type.isTupleType
          · simp [tupleTypeLiteralConstraint, firstLiteralConstraint, h]
          · simpa [tupleTypeLiteralConstraint, firstLiteralConstraint, h] using ih

theorem objectTypeLiteralConstraint_eq_first (cs : ExprConstraints) :
    objectTypeLiteralConstraint cs = firstLiteralConstraint CtyType.isObjectType cs := by
  induction cs with
  | nil => rfl
  | cons c rest ih =>
      cases c with
      | literalType lt =>
          by_cases h : lt.type.isObjectType
          · simp [objectTypeLiteralConstraint, firstLiteralConstraint, h]
          · simpa [objectTypeLiteralConstraint, firstLiteralConstraint, h] using ih

theorem mapTypeLiteralConstraint_eq_first (cs : ExprConstraints) :
    mapTypeLiteralConstraint cs = firstLiteralConstraint CtyType.isMapType cs := by
  induction cs with
  | nil => rfl
  | cons c rest ih =>
      cases c with
      | literalType lt =>
          by_cases h : lt.type.isMapType
          · simp [mapTypeLiteralConstraint, firstLiteralConstraint, h]
          · simpa [mapTypeLiteralConstraint, firstLiteralConstraint, h] using ih

theorem literalExprForType_eq_first (t : CtyType) (cs : ExprConstraints) :
    literalExprForType t cs
      = firstLiteralConstraint (fun u => CtyType.beq u t) cs := by
  induction cs with
  | nil => rfl
  | cons c rest ih =>
      cases c with
      | literalType lt =>
          by_cases h : CtyType.beq lt.type t
          · simp [literalExprForType, firstLiteralConstraint, h]
          · simpa [literalExprForType, firstLiteralConstraint, h] using ih

/-- C1: the expression constraint engine classifies a
sequence-construction expression by the first list-typed constraint,
then the first set-typed, then the first tuple-typed one; a
keyed-construction expression by the first object-typed, then the first
map-typed constraint; and a literal expression only by a constraint
whose declared type is exactly equal to the literal's value type
(otherwise the incompatible/unknown-literal-type condition) — and the
hover path and the token path make the same selection. -/
theorem c1_expression_constraint_classification
    (cs : ExprConstraints) (es : List Expr) (items : List (Expr × Expr))
    (v : CtyValue) (rng : Range) :
    (hoverContentForExpr (.tupleConsExpr es rng) cs =
       match firstLiteralConstraint CtyType.isListType cs with
       | some lve => hoverContentForValueAndType (.nullVal lve.type) lve.type
       | none =>
         match firstLiteralConstraint CtyType.isSetType cs with
         | some lve => hoverContentForValueAndType (.nullVal lve.type) lve.type
         | none =>
           match firstLiteralConstraint CtyType.isTupleType cs with
           | some lve => hoverContentForValueAndType (.nullVal lve.type) lve.type
           | none => .error "unsupported expression (*hclsyntax.TupleConsExpr)")
    ∧ (tokensForConstrainedExpression (.tupleConsExpr es rng) cs =
       match firstLiteralConstraint CtyType.isListType cs with
       | some lve => tokensForTupleConsExpr es lve.type 0
       | none =>
         match firstLiteralConstraint CtyType.isSetType cs with
         | some lve => tokensForTupleConsExpr es lve.type 0
         | none =>
           match firstLiteralConstraint CtyType.isTupleType cs with
           | some lve => tokensForTupleConsExpr es lve.type 0
           | none => [])
    ∧ (hoverContentForExpr (.objectConsExpr items rng) cs =
       match firstLiteralConstraint CtyType.isObjectType cs with
       | some lve => hoverContentForValueAndType (.nullVal lve.type) lve.type
       | none =>
         match firstLiteralConstraint CtyType.isMapType cs with
         | some lve => hoverContentForValueAndType (.nullVal lve.type) lve.type
         | none => .error "unsupported expression (*hclsyntax.ObjectConsExpr)")
    ∧ (tokensForConstrainedExpression (.objectConsExpr items rng) cs =
       match firstLiteralConstraint CtyType.isObjectType cs with
       | some lve => tokensForObjectConsExpr items lve.type
       | none =>
         match firstLiteralConstraint CtyType.isMapType cs with
         | some lve => tokensForObjectConsExpr items lve.type
         | none => [])
    ∧ (hoverContentForExpr (.literalValueExpr v rng) cs =
       match firstLiteralConstraint (fun u => CtyType.beq u v.typeOf) cs with
       | some lve => hoverContentForValueAndType v lve.type
       | none =>
           .error ("no schema for literal type " ++ goQuote v.typeOf.friendlyName))
    ∧ (tokensForConstrainedExpression (.literalValueExpr v rng) cs =
       match firstLiteralConstraint (fun u => CtyType.beq u v.typeOf) cs with
       | some _ => tokenForTypedExpression (.literalValueExpr v rng) v.typeOf
       | none => [])
    ∧ (∀ a b : CtyType, CtyType.beq a b = true ↔ a = b) := by
  refine ⟨?_, ?_, ?_, ?_, ?_, ?_, CtyType.beq_iff⟩ <;>
    simp only [hoverContentForExpr, tokensForConstrainedExpression,
      listTypeLiteralConstraint_eq_first, setTypeLiteralConstraint_eq_first,
      tupleTypeLiteralConstraint_eq_first, objectTypeLiteralConstraint_eq_first,
      mapTypeLiteralConstraint_eq_first, literalExprForType_eq_first]

theorem valuesToCandidates_range : ∀ (vals : List CtyValue) (rng : Range),
    ∀ c ∈ valuesToCandidates vals rng, c.textEdit.range = rng
  | [], _ => by simp [valuesToCandidates]
  | v :: rest, rng => by
      intro c hc
      rw [valuesToCandidates] at hc
      rcases List.mem_append.1 hc with h | h
      · cases htv : v.typeOf <;> rw [htv] at h <;> simp_all
      · exact valuesToCandidates_range rest rng c h

theorem typeToCandidates_range (t : CtyType) (rng : Range) :
    ∀ c ∈ typeToCandidates t rng, c.textEdit.range = rng := by
  intro c hc
  rw [typeToCandidates] at hc
  split at hc
  · exact valuesToCandidates_range _ _ c hc
  · split at hc
    · simp at hc
    · simp at hc
      simp [hc]

theorem constraintToCandidates_range (c : ExprConstraint) (rng : Range) :
    ∀ cand ∈ constraintToCandidates c rng, cand.textEdit.range = rng := by
  cases c with
  | literalType lt => exact typeToCandidates_range lt.type rng

theorem expressionCandidatesAtPos_range (cs : ExprConstraints) (rng : Range) :
    ∀ cand ∈ (expressionCandidatesAtPos cs rng).list,
      cand.textEdit.range = rng := by
  intro cand hc
  simp only [expressionCandidatesAtPos, NewCandidates, List.nil_append,
    List.mem_flatMap] at hc
  obtain ⟨c, _, hmem⟩ := hc
  exact constraintToCandidates_range c rng cand hmem

/-- C5: completion candidates are produced only when the attribute's
value expression is a literal whose value is not wholly known (an edit
placeholder); for a wholly-known literal or any non-literal expression
kind the result is the empty candidate list; and every offered
candidate's edit range is collapsed to the expression's start position. -/
theorem c5_candidates_only_at_placeholder
    (attr : Attribute) (s : AttributeSchema) (pos : Pos) :
    ((∀ v r, attr.expr = .literalValueExpr v r → v.isWhollyKnown = true) →
        attrValueCandidatesAtPos attr s pos = ZeroCandidates)
    ∧ (∀ c ∈ (attrValueCandidatesAtPos attr s pos).list,
        c.textEdit.range =
          { filename := attr.expr.range.filename
            start := attr.expr.range.start
            endPos := attr.expr.range.start }) := by
  constructor
  · intro h
    cases hE : attr.expr with
    | literalValueExpr v r =>
        have hk := h v r hE
        simp [attrValueCandidatesAtPos, constraintsAtPos, hE, hk]
    | templateExpr parts r => simp [attrValueCandidatesAtPos, constraintsAtPos, hE]
    | templateWrapExpr w r => simp [attrValueCandidatesAtPos, constraintsAtPos, hE]
    | tupleConsExpr es r => simp [attrValueCandidatesAtPos, constraintsAtPos, hE]
    | objectConsExpr items r => simp [attrValueCandidatesAtPos, constraintsAtPos, hE]
    | otherExpr r => simp [attrValueCandidatesAtPos, constraintsAtPos, hE]
  · intro c hc
    cases hE : attr.expr with
    | literalValueExpr v r =>
        by_cases hk : v.isWhollyKnown = true
        · simp [attrValueCandidatesAtPos, constraintsAtPos, hE, hk,
            ZeroCandidates] at hc
        · have hk' : v.isWhollyKnown = false := by simpa using hk
          have hres : attrValueCandidatesAtPos attr s pos =
              if s.expr.length > 0 then
                expressionCandidatesAtPos s.expr
                  { filename := r.filename, start := r.start, endPos := r.start }
              else ZeroCandidates := by
            simp [attrValueCandidatesAtPos, constraintsAtPos, hE, hk']
          rw [hres] at hc
          split at hc
          · have := expressionCandidatesAtPos_range s.expr _ c hc
            simpa [hE, Expr.range] using this
          · simp [ZeroCandidates] at hc
    | templateExpr parts r =>
        simp [attrValueCandidatesAtPos, constraintsAtPos, hE, ZeroCandidates] at hc
    | templateWrapExpr w r =>
        simp [attrValueCandidatesAtPos, constraintsAtPos, hE, ZeroCandidates] at hc
    | tupleConsExpr es r =>
        simp [attrValueCandidatesAtPos, constraintsAtPos, hE, ZeroCandidates] at hc
    | objectConsExpr items r =>
        simp [attrValueCandidatesAtPos, constraintsAtPos, hE, ZeroCandidates] at hc
    | otherExpr r =>
        simp [attrValueCandidatesAtPos, constraintsAtPos, hE, ZeroCandidates] at hc

/-- Witness for C5: a wholly-known boolean literal yields the empty
candidate list, and at a not-wholly-known literal every candidate's edit
range collapses to the expression's start. -/
theorem c5_witness :
    attrValueCandidatesAtPos
      { name := "enabled"
        expr := .literalValueExpr (.boolVal true) (exampleRange 10 14)
        nameRange := exampleRange 0 7, srcRange := exampleRange 0 14 }
      { expr := LiteralTypeOnly .bool } ⟨1, 11, 10⟩ = ZeroCandidates
    ∧ (∀ c ∈ (attrValueCandidatesAtPos
        { name := "enabled"
          expr := .literalValueExpr (.unknownVal .bool) (exampleRange 10 10)
          nameRange := exampleRange 0 7, srcRange := exampleRange 0 10 }
        { expr := LiteralTypeOnly .bool } ⟨1, 11, 10⟩).list,
        c.textEdit.range =
          { filename := "test.tf", start := ⟨1, 11, 10⟩, endPos := ⟨1, 11, 10⟩ }) := by
  constructor
  · exact (c5_candidates_only_at_placeholder _ _ _).1
      (by intro v r h; cases h; rfl)
  · intro c hc
    have := (c5_candidates_only_at_placeholder
      { name := "enabled"
        expr := .literalValueExpr (.unknownVal .bool) (exampleRange 10 10)
        nameRange := exampleRange 0 7, srcRange := exampleRange 0 10 }
      { expr := LiteralTypeOnly .bool } ⟨1, 11, 10⟩).2 c hc
    simpa [Expr.range, exampleRange] using this

/-- C6: a boolean-constrained expression with no wholly-known value gets
exactly two candidates, literal `false` and `true`, each with a
single-line replacement text; any other primitive-typed constraint
(string, number) contributes zero candidates. -/
theorem c6_boolean_constraint_candidates
    (rng : Range) (attr : Attribute) (s : AttributeSchema) (pos : Pos)
    (v : CtyValue) (r : Range)
    (hE : attr.expr = .literalValueExpr v r) (hk : v.isWhollyKnown = false)
    (hs : s.expr = LiteralTypeOnly .bool) :
    attrValueCandidatesAtPos attr s pos =
      { list :=
          [{ label := "false", detail := "bool", description := PlainText "bool"
             kind := .literalValueCandidateKind
             textEdit := { newText := "false", snippet := "$\x7b1:false\x7d"
                           range := { filename := r.filename, start := r.start
                                      endPos := r.start } } },
           { label := "true", detail := "bool", description := PlainText "bool"
             kind := .literalValueCandidateKind
             textEdit := { newText := "true", snippet := "$\x7b1:true\x7d"
                           range := { filename := r.filename, start := r.start
                                      endPos := r.start } } }]
        isComplete := true }
    ∧ ("false".data.contains '\n') = false ∧ ("true".data.contains '\n') = false
    ∧ typeToCandidates .string rng = []
    ∧ typeToCandidates .number rng = [] := by
  refine ⟨?_, by decide, by decide, rfl, rfl⟩
  simp [attrValueCandidatesAtPos, constraintsAtPos, hE, hk, hs,
    LiteralTypeOnly, expressionCandidatesAtPos, NewCandidates,
    constraintToCandidates, typeToCandidates, valuesToCandidates,
    CtyType.beq, CtyValue.typeOf, CtyValue.isTrue, CtyType.friendlyName]

/-- Witness for C6: the two boolean candidates at a concrete
empty-valued attribute. -/
theorem c6_witness :
    attrValueCandidatesAtPos
      { name := "enabled"
        expr := .literalValueExpr (.unknownVal .bool) (exampleRange 10 10)
        nameRange := exampleRange 0 7, srcRange := exampleRange 0 10 }
      { expr := LiteralTypeOnly .bool } ⟨1, 11, 10⟩ =
      { list :=
          [{ label := "false", detail := "bool", description := PlainText "bool"
             kind := .literalValueCandidateKind
             textEdit := { newText := "false", snippet := "$\x7b1:false\x7d"
                           range := { filename := "test.tf"
                                      start := ⟨1, 11, 10⟩
                                      endPos := ⟨1, 11, 10⟩ } } },
           { label := "true", detail := "bool", description := PlainText "bool"
             kind := .literalValueCandidateKind
             textEdit := { newText := "true", snippet := "$\x7b1:true\x7d"
                           range := { filename := "test.tf"
                                      start := ⟨1, 11, 10⟩
                                      endPos := ⟨1, 11, 10⟩ } } }]
        isComplete := true } := by
  have h := (c6_boolean_constraint_candidates (exampleRange 0 0)
    { name := "enabled"
      expr := .literalValueExpr (.unknownVal .bool) (exampleRange 10 10)
      nameRange := exampleRange 0 7, srcRange := exampleRange 0 10 }
    { expr := LiteralTypeOnly .bool } ⟨1, 11, 10⟩
    (.unknownVal .bool) (exampleRange 10 10) rfl rfl rfl).1
  simpa [exampleRange] using h

/-- C10 (implicit): whenever at least one constraint applies at an empty
(not wholly known) expression value, the returned candidate list has
`isComplete = true` — `expressionCandidatesAtPos` marks every list it
builds complete, including empty ones. -/
theorem c10_candidates_marked_complete
    (attr : Attribute) (s : AttributeSchema) (pos : Pos)
    (v : CtyValue) (r : Range)
    (hE : attr.expr = .literalValueExpr v r) (hk : v.isWhollyKnown = false)
    (hs : s.expr ≠ []) :
    (attrValueCandidatesAtPos attr s pos).isComplete = true
    ∧ (∀ cs rng, (expressionCandidatesAtPos cs rng).isComplete = true) := by
  constructor
  · have hlen : s.expr.length > 0 := List.length_pos.2 hs
    simp [attrValueCandidatesAtPos, constraintsAtPos, hE, hk, hlen,
      expressionCandidatesAtPos]
  · intro cs rng
    rfl

/-- Witness for C10: a string-typed literal constraint at an empty value
yields zero candidate items yet a complete list. -/
theorem c10_witness :
    (attrValueCandidatesAtPos
      { name := "source"
        expr := .literalValueExpr (.unknownVal .string) (exampleRange 9 9)
        nameRange := exampleRange 0 6, srcRange := exampleRange 0 9 }
      { expr := LiteralTypeOnly .string } ⟨1, 10, 9⟩).isComplete = true
    ∧ (attrValueCandidatesAtPos
      { name := "source"
        expr := .literalValueExpr (.unknownVal .string) (exampleRange 9 9)
        nameRange := exampleRange 0 6, srcRange := exampleRange 0 9 }
      { expr := LiteralTypeOnly .string } ⟨1, 10, 9⟩).list = [] := by
  refine ⟨?_, rfl⟩
  exact (c10_candidates_marked_complete
    { name := "source"
      expr := .literalValueExpr (.unknownVal .string) (exampleRange 9 9)
      nameRange := exampleRange 0 6, srcRange := exampleRange 0 9 }
    { expr := LiteralTypeOnly .string } ⟨1, 10, 9⟩
    (.unknownVal .string) (exampleRange 9 9) rfl rfl
    (by simp [LiteralTypeOnly])).1

theorem tokensForLabels_take : ∀ (ranges : List Range) (ls : List LabelSchema),
    tokensForLabels ranges ls = tokensForLabels (ranges.take ls.length) ls
  | [], _ => by cases ls' : ([] : List LabelSchema) <;> simp [tokensForLabels]
  | _ :: _, [] => by simp [tokensForLabels]
  | r :: rs, l :: ls => by
      simp [tokensForLabels, tokensForLabels_take rs ls]

/-- C4: `semantic_tokens` never returns a positional error — its only
failures are file/format resolution — and unknown attributes (no schema
entry and no fallback), unknown block types, and labels beyond the
declared label schemas are silently skipped, contributing no tokens. -/
theorem c4_semantic_tokens_never_positional
    (d : Decoder) (filename : String)
    (attr : Attribute) (rest : List Attribute) (bs : BodySchema) (dep : Bool)
    (block : Block) (brest : List Block)
    (ranges : List Range) (ls : List LabelSchema) :
    (∀ f p m, d.SemanticTokensInFile filename ≠ .error (.positional f p m))
    ∧ (bs.lookupAttr attr.name = none →
        tokensForAttributes (attr :: rest) bs dep = tokensForAttributes rest bs dep)
    ∧ (bs.lookupBlock block.type = none →
        tokensForBlocks (block :: brest) bs dep = tokensForBlocks brest bs dep)
    ∧ tokensForLabels ranges ls = tokensForLabels (ranges.take ls.length) ls := by
  refine ⟨?_, ?_, ?_, tokensForLabels_take ranges ls⟩
  · intro f p m
    simp only [Decoder.SemanticTokensInFile, Decoder.fileByName]
    cases hfind : d.files.find? (fun q => q.1 == filename) with
    | none => simp [hfind, Bind.bind, Except.bind]
    | some pr =>
        obtain ⟨nm, file⟩ := pr
        cases file with
        | none => simp [hfind, bodyForFileAndPos, Bind.bind, Except.bind]
        | some body =>
            cases hrs : d.rootSchema with
            | none => simp [hfind, bodyForFileAndPos, hrs, Bind.bind, Except.bind]
            | some rs => simp [hfind, bodyForFileAndPos, hrs, Bind.bind, Except.bind]
  · intro h
    simp [tokensForAttributes, h]
  · intro h
    cases block with
    | mk ty lbls bb tyR lR sR => simp [tokensForBlocks, h]

/-- Witness for C4: a schema recognizing nothing yields no tokens for an
unknown attribute and an unknown block, and a concrete
`SemanticTokensInFile` query returns no positional error. -/
theorem c4_witness :
    tokensForAttributes
      [{ name := "unknown"
         expr := .literalValueExpr (.num 1) (exampleRange 10 11)
         nameRange := exampleRange 0 7, srcRange := exampleRange 0 11 }]
      emptyBodySchema false = []
    ∧ tokensForBlocks
      [.mk "mystery" [] (.mk [] [] (exampleRange 9 11)) (exampleRange 0 7)
        [] (exampleRange 0 11)]
      emptyBodySchema false = []
    ∧ (∀ f p m,
        Decoder.SemanticTokensInFile
          { files := [("test.tf", some (.mk [] [] (exampleRange 0 0)))]
            rootSchema := some emptyBodySchema } "test.tf"
          ≠ .error (.positional f p m)) := by
  refine ⟨?_, ?_, ?_⟩
  · have h := (c4_semantic_tokens_never_positional
      { files := [], rootSchema := none } ""
      { name := "unknown"
        expr := .literalValueExpr (.num 1) (exampleRange 10 11)
        nameRange := exampleRange 0 7, srcRange := exampleRange 0 11 }
      [] emptyBodySchema false
      (.mk "mystery" [] (.mk [] [] (exampleRange 9 11)) (exampleRange 0 7)
        [] (exampleRange 0 11)) [] [] []).2.1 rfl
    simpa [tokensForAttributes] using h
  · have h := (c4_semantic_tokens_never_positional
      { files := [], rootSchema := none } ""
      { name := "unknown"
        expr := .literalValueExpr (.num 1) (exampleRange 10 11)
        nameRange := exampleRange 0 7, srcRange := exampleRange 0 11 }
      [] emptyBodySchema false
      (.mk "mystery" [] (.mk [] [] (exampleRange 9 11)) (exampleRange 0 7)
        [] (exampleRange 0 11)) [] [] []).2.2.1 rfl
    simpa [tokensForBlocks] using h
  · intro f p m
    exact (c4_semantic_tokens_never_positional
      { files := [("test.tf", some (.mk [] [] (exampleRange 0 0)))]
        rootSchema := some emptyBodySchema } "test.tf"
      { name := "unknown"
        expr := .literalValueExpr (.num 1) (exampleRange 10 11)
        nameRange := exampleRange 0 7, srcRange := exampleRange 0 11 }
      [] emptyBodySchema false
      (.mk "mystery" [] (.mk [] [] (exampleRange 9 11)) (exampleRange 0 7)
        [] (exampleRange 0 11)) [] [] []).1 f p m

mutual
theorem tokensForConstrainedExpression_types :
    ∀ (e : Expr) (cs : ExprConstraints),
    ∀ t ∈ tokensForConstrainedExpression e cs, isExprTokenType t.tokenType = true
  | .templateExpr parts rng, cs => by
      intro t ht
      rcases parts with _ | ⟨p, _ | ⟨q, ps⟩⟩
      · simp [tokensForConstrainedExpression] at ht
      · rw [tokensForConstrainedExpression] at ht
        exact tokensForConstrainedExpression_types p cs t ht
      · simp [tokensForConstrainedExpression] at ht
  | .templateWrapExpr w rng, cs => by
      intro t ht
      rw [tokensForConstrainedExpression] at ht
      exact tokensForConstrainedExpression_types w cs t ht
  | .tupleConsExpr es rng, cs => by
      intro t ht
      rw [tokensForConstrainedExpression] at ht
      split at ht
      · exact tokensForTupleConsExpr_types es _ 0 t ht
      · split at ht
        · exact tokensForTupleConsExpr_types es _ 0 t ht
        · split at ht
          · exact tokensForTupleConsExpr_types es _ 0 t ht
          · simp at ht
  | .objectConsExpr items rng, cs => by
      intro t ht
      rw [tokensForConstrainedExpression] at ht
      split at ht
      · exact tokensForObjectConsExpr_types items _ t ht
      · split at ht
        · exact tokensForObjectConsExpr_types items _ t ht
        · simp at ht
  | .literalValueExpr v rng, cs => by
      intro t ht
      rw [tokensForConstrainedExpression] at ht
      split at ht
      · exact tokenForTypedExpression_types (.literalValueExpr v rng) _ t ht
      · simp at ht
  | .otherExpr rng, cs => by
      intro t ht
      rw [tokensForConstrainedExpression] at ht
      simp at ht
termination_by e _ => (sizeOf e, 2)

theorem tokenForTypedExpression_types :
    ∀ (e : Expr) (valType : CtyType),
    ∀ t ∈ tokenForTypedExpression e valType, isExprTokenType t.tokenType = true
  | .literalValueExpr v rng, valType => by
      intro t ht
      rw [tokenForTypedExpression] at ht
      split at ht
      · cases valType <;> simp_all [tokensForLiteralValueExpr, isExprTokenType]
      · simp at ht
  | .objectConsExpr items rng, valType => by
      intro t ht
      rw [tokenForTypedExpression] at ht
      exact tokensForObjectConsExpr_types items valType t ht
  | .tupleConsExpr es rng, valType => by
      intro t ht
      rw [tokenForTypedExpression] at ht
      exact tokensForTupleConsExpr_types es valType 0 t ht
  | .templateExpr parts rng, valType => by
      intro t ht
      simp [tokenForTypedExpression] at ht
  | .templateWrapExpr w rng, valType => by
      intro t ht
      simp [tokenForTypedExpression] at ht
  | .otherExpr rng, valType => by
      intro t ht
      simp [tokenForTypedExpression] at ht
termination_by e _ => (sizeOf e, 0)

theorem tokensForObjectConsExpr_types :
    ∀ (items : List (Expr × Expr)) (exprType : CtyType),
    ∀ t ∈ tokensForObjectConsExpr items exprType,
      isExprTokenType t.tokenType = true := fun items exprType => by
  intro t ht
  rw [tokensForObjectConsExpr] at ht
  rcases List.mem_append.1 ht with h | h
  · split at h
    · exact tokensForObjectItems_types items exprType t h
    · simp at h
  · split at h
    · exact tokensForMapItems_types items exprType.elementType t h
    · simp at h
termination_by items _ => (sizeOf items, 1)

theorem tokensForObjectItems_types :
    ∀ (items : List (Expr × Expr)) (exprType : CtyType),
    ∀ t ∈ tokensForObjectItems items exprType, isExprTokenType t.tokenType = true
  | [], _ => by
      intro t ht
      rw [tokensForObjectItems] at ht
      simp at ht
  | (keyExpr, valueExpr) :: rest, exprType => by
      intro t ht
      rw [tokensForObjectItems] at ht
      rcases List.mem_append.1 ht with h | h
      · split at h
        · split at h
          · simp at h
          · rcases List.mem_cons.1 h with h | h
            · simp [h, isExprTokenType]
            · exact tokenForTypedExpression_types valueExpr _ t h
        · simp at h
      · exact tokensForObjectItems_types rest exprType t h
termination_by items _ => (sizeOf items, 0)

theorem tokensForMapItems_types :
    ∀ (items : List (Expr × Expr)) (elemType : CtyType),
    ∀ t ∈ tokensForMapItems items elemType, isExprTokenType t.tokenType = true
  | [], _ => by
      intro t ht
      rw [tokensForMapItems] at ht
      simp at ht
  | (keyExpr, valueExpr) :: rest, elemType => by
      intro t ht
      rw [tokensForMapItems] at ht
      rcases List.mem_append.1 ht with h | h
      · rcases List.mem_cons.1 h with h | h
        · simp [h, isExprTokenType]
        · exact tokenForTypedExpression_types valueExpr elemType t h
      · exact tokensForMapItems_types rest elemType t h
termination_by items _ => (sizeOf items, 0)

theorem tokensForTupleConsExpr_types :
    ∀ (es : List Expr) (exprType : CtyType) (i : Nat),
    ∀ t ∈ tokensForTupleConsExpr es exprType i, isExprTokenType t.tokenType = true
  | [], _, _ => by
      intro t ht
      rw [tokensForTupleConsExpr] at ht
      simp at ht
  | e :: rest, exprType, i => by
      intro t ht
      rw [tokensForTupleConsExpr] at ht
      rcases List.mem_append.1 ht with h | h
      · exact tokenForTypedExpression_types e _ t h
      · exact tokensForTupleConsExpr_types rest exprType (i + 1) t h
termination_by es _ _ => (sizeOf es, 0)
end

theorem depPass_attr_tokens_marked :
    ∀ (attrs : List Attribute) (s : BodySchema),
    ∀ t ∈ tokensForAttributes attrs s true,
      t.tokenType = .attrName → .dependent ∈ t.modifiers
  | [], _ => by simp [tokensForAttributes]
  | attr :: rest, s => by
      intro t ht hty
      rw [tokensForAttributes] at ht
      rcases List.mem_append.1 ht with h | h
      · split at h
        · simp at h
        · rcases List.mem_cons.1 h with h | h
          · subst h
            simp [tokenModifiers]
          · have hv := tokensForConstrainedExpression_types _ _ t h
            rw [hty] at hv
            simp [isExprTokenType] at hv
      · exact depPass_attr_tokens_marked rest s t h hty

/-- C3 (amended): when a block's dependency keys match a dependent body
schema, the nested body is tokenized twice — once against the block's
own body schema and once against the dependent body schema with the
dependent flag set — and both token lists are concatenated into the
result.  In that second pass the "dependent" modifier is carried by the
attribute-name tokens of the body's immediate attributes and by the
block-type tokens of its immediate blocks (whose modifier lists are
built by `tokenModifiers true`); expression value tokens, label tokens
and tokens of more deeply nested bodies are not marked. -/
theorem c3_dependent_double_tokenization
    (block : Block) (rest : List Block) (bs : BodySchema)
    (bSchema : BlockSchema) (depSchema : BodySchema) (dep : Bool)
    (hb : bs.lookupBlock block.type = some bSchema)
    (hd : bSchema.dependentBodySchema (dependencyKeysFromBlock block bSchema)
            = some depSchema) :
    tokensForBlocks (block :: rest) bs dep =
      ({ tokenType := .blockType
         modifiers := tokenModifiers dep bSchema.isDeprecated
         range := block.typeRange }
        :: (tokensForLabels block.labelRanges bSchema.labels
            ++ tokensForBody block.body bSchema.body false
            ++ tokensForBody block.body (some depSchema) true))
        ++ tokensForBlocks rest bs dep
    ∧ (∀ attrs s, ∀ t ∈ tokensForAttributes attrs s true,
        t.tokenType = .attrName → .dependent ∈ t.modifiers)
    ∧ (∀ x, .dependent ∈ tokenModifiers true x) := by
  obtain ⟨ty, lbls, bb, tyR, lR, sR⟩ := block
  refine ⟨?_, depPass_attr_tokens_marked, ?_⟩
  · rw [tokensForBlocks]
    simp only [Block.type, Block.body, Block.typeRange, Block.labelRanges]
      at hb hd ⊢
    simp [hb, hd, List.append_assoc]
  · intro x
    cases x <;> simp [tokenModifiers]

/-- Counterexample to C3 as stated: in a dependent-schema pass
(`isDependent = true`) the string value token of
`instance_type = "t2.micro"` carries no "dependent" modifier, so not
every token of the second pass is marked. -/
theorem c3_counterexample :
    ∃ t ∈ tokensForBody
        (.mk [{ name := "instance_type"
                expr := .literalValueExpr (.str "t2.micro") (exampleRange 16 26)
                nameRange := exampleRange 0 13
                srcRange := exampleRange 0 26 }]
          [] (exampleRange 0 26))
        (some (.mk [("instance_type", { expr := LiteralTypeOnly .string })]
          [] none "" (PlainText "") none))
        true,
      SemanticTokenModifier.dependent ∉ t.modifiers := by
  refine ⟨{ tokenType := .stringTok, modifiers := [], range := exampleRange 16 26 },
    ?_, by simp⟩
  simp [tokensForBody, tokensForAttributes, tokensForBlocks,
    BodySchema.lookupAttr, BodySchema.anyAttribute, BodySchema.attributes,
    tokensForConstrainedExpression, literalExprForType, LiteralTypeOnly,
    CtyType.beq, CtyValue.typeOf, tokenForTypedExpression,
    CtyType.isPrimitiveType, tokensForLiteralValueExpr, tokenModifiers,
    Expr.range]

/-- Witness for C3: the concrete `resource "aws_instance" "beta"` block
produces the block header tokens, no own-body tokens (its body schema is
nil), and the dependent pass's attribute-name token marked dependent
next to its unmarked string value token. -/
theorem c3_witness :
    tokensForBlocks [exampleResourceBlock] exampleRootSchema false =
      [{ tokenType := .blockType, modifiers := [], range := exampleRange 0 8 },
       { tokenType := .blockLabel, modifiers := [.dependent], range := exampleRange 9 23 },
       { tokenType := .blockLabel, modifiers := [], range := exampleRange 24 30 },
       { tokenType := .attrName, modifiers := [.dependent], range := exampleRange 35 48 },
       { tokenType := .stringTok, modifiers := [], range := exampleRange 51 61 }] := by
  have hb : exampleRootSchema.lookupBlock exampleResourceBlock.type
      = some exampleResourceSchema := by
    simp [exampleRootSchema, exampleResourceBlock, Block.type,
      BodySchema.lookupBlock, BodySchema.blocks]
  have hd : exampleResourceSchema.dependentBodySchema
      (dependencyKeysFromBlock exampleResourceBlock exampleResourceSchema)
      = some exampleDepBodySchema := by
    simp [exampleResourceSchema, exampleResourceBlock,
      BlockSchema.dependentBodySchema, BlockSchema.dependentBody,
      BlockSchema.labels, Block.labels, dependencyKeysFromBlock,
      NewSchemaKey, List.mergeSort, SchemaKey.beq, List.enum]
  rw [(c3_dependent_double_tokenization exampleResourceBlock []
    exampleRootSchema exampleResourceSchema exampleDepBodySchema false hb hd).1]
  simp [exampleResourceBlock, exampleResourceSchema, exampleDepBodySchema,
    Block.typeRange, Block.labelRanges, Block.body, BlockSchema.labels,
    BlockSchema.body, BlockSchema.isDeprecated, tokenModifiers,
    tokensForLabels, tokensForBody, tokensForAttributes, tokensForBlocks,
    BodySchema.lookupAttr, BodySchema.attributes, BodySchema.anyAttribute,
    tokensForConstrainedExpression, literalExprForType, LiteralTypeOnly,
    CtyType.beq, CtyValue.typeOf, tokenForTypedExpression,
    CtyType.isPrimitiveType, tokensForLiteralValueExpr, Expr.range]

theorem exprTokens_countP_zero (e : Expr) (cs : ExprConstraints)
    (ty : SemanticTokenType) (h : isExprTokenType ty = false) :
    (tokensForConstrainedExpression e cs).countP
      (fun t => t.tokenType == ty) = 0 := by
  refine List.countP_eq_zero.2 ?_
  intro t ht hbeq
  have h1 := tokensForConstrainedExpression_types e cs t ht
  have h2 : t.tokenType = ty := by
    simpa using hbeq
  rw [h2] at h1
  rw [h1] at h
  cases h

theorem attrTokens_counts :
    ∀ (attrs : List Attribute) (bs : BodySchema) (dep : Bool),
    (tokensForAttributes attrs bs dep).countP (fun t => t.tokenType == .attrName)
        = attrs.countP (fun a => (bs.lookupAttr a.name).isSome)
    ∧ (tokensForAttributes attrs bs dep).countP (fun t => t.tokenType == .blockType) = 0
    ∧ (tokensForAttributes attrs bs dep).countP (fun t => t.tokenType == .blockLabel) = 0
  | [], _, _ => by simp [tokensForAttributes]
  | attr :: rest, bs, dep => by
      obtain ⟨ih1, ih2, ih3⟩ := attrTokens_counts rest bs dep
      cases hl : bs.lookupAttr attr.name with
      | none =>
          refine ⟨?_, ?_, ?_⟩ <;>
            simp [tokensForAttributes, hl, List.countP_cons, ih1, ih2, ih3]
      | some aSchema =>
          have hz1 := exprTokens_countP_zero attr.expr aSchema.expr .attrName rfl
          have hz2 := exprTokens_countP_zero attr.expr aSchema.expr .blockType rfl
          have hz3 := exprTokens_countP_zero attr.expr aSchema.expr .blockLabel rfl
          refine ⟨?_, ?_, ?_⟩ <;>
            simp [tokensForAttributes, hl, List.countP_append, List.countP_cons,
              ih1, ih2, ih3, hz1, hz2, hz3]

theorem labelTokens_counts :
    ∀ (ranges : List Range) (ls : List LabelSchema),
    (tokensForLabels ranges ls).countP (fun t => t.tokenType == .blockLabel)
        = min ranges.length ls.length
    ∧ (tokensForLabels ranges ls).countP (fun t => t.tokenType == .attrName) = 0
    ∧ (tokensForLabels ranges ls).countP (fun t => t.tokenType == .blockType) = 0
  | [], ls => by simp [tokensForLabels]
  | r :: rs, [] => by simp [tokensForLabels]
  | r :: rs, l :: ls => by
      obtain ⟨ih1, ih2, ih3⟩ := labelTokens_counts rs ls
      refine ⟨?_, ?_, ?_⟩ <;>
        simp [tokensForLabels, List.countP_cons, ih1, ih2, ih3,
          Nat.succ_min_succ]

mutual
theorem specCounts_tokensForBody :
    ∀ (b : Body) (bs : Option BodySchema) (dep : Bool),
    noDepBody b bs = true →
    ((tokensForBody b bs dep).countP (fun t => t.tokenType == .attrName)
        = (specTokenCounts b bs).1
     ∧ (tokensForBody b bs dep).countP (fun t => t.tokenType == .blockType)
        = (specTokenCounts b bs).2.1
     ∧ (tokensForBody b bs dep).countP (fun t => t.tokenType == .blockLabel)
        = (specTokenCounts b bs).2.2)
  | .mk attrs blocks rng, none, dep => by
      intro _
      simp [tokensForBody, specTokenCounts]
  | .mk attrs blocks rng, some bs, dep => by
      intro hnd
      rw [noDepBody] at hnd
      obtain ⟨hb1, hb2, hb3⟩ := specCounts_tokensForBlocks blocks bs dep hnd
      obtain ⟨ha1, ha2, ha3⟩ := attrTokens_counts attrs bs dep
      refine ⟨?_, ?_, ?_⟩ <;>
        simp [tokensForBody, specTokenCounts, List.countP_append,
          ha1, ha2, ha3, hb1, hb2, hb3]
termination_by b _ _ => sizeOf b

theorem specCounts_tokensForBlocks :
    ∀ (blocks : List Block) (bs : BodySchema) (dep : Bool),
    noDepBlocks blocks bs = true →
    ((tokensForBlocks blocks bs dep).countP (fun t => t.tokenType == .attrName)
        = (specTokenCountsBlocks blocks bs).1
     ∧ (tokensForBlocks blocks bs dep).countP (fun t => t.tokenType == .blockType)
        = (specTokenCountsBlocks blocks bs).2.1
     ∧ (tokensForBlocks blocks bs dep).countP (fun t => t.tokenType == .blockLabel)
        = (specTokenCountsBlocks blocks bs).2.2)
  | [], bs, dep => by
      intro _
      simp [tokensForBlocks, specTokenCountsBlocks]
  | block@(.mk ty lbls blockBody tyR lR sR) :: rest, bs, dep => by
      intro hnd
      rw [noDepBlocks] at hnd
      simp only [Bool.and_eq_true] at hnd
      obtain ⟨hhead, htail⟩ := hnd
      obtain ⟨ih1, ih2, ih3⟩ := specCounts_tokensForBlocks rest bs dep htail
      rw [tokensForBlocks, specTokenCountsBlocks]
      cases hl : bs.lookupBlock (Block.mk ty lbls blockBody tyR lR sR).type with
      | none => simp [hl, ih1, ih2, ih3]
      | some bSchema =>
          rw [hl] at hhead
          simp only [Option.isNone_iff_eq_none, Bool.and_eq_true] at hhead
          obtain ⟨hdep, hinner⟩ := hhead
          obtain ⟨hi1, hi2, hi3⟩ :=
            specCounts_tokensForBody blockBody bSchema.body false hinner
          obtain ⟨hl1, hl2, hl3⟩ := labelTokens_counts lR bSchema.labels
          refine ⟨?_, ?_, ?_⟩ <;>
            (simp [hl, hdep, List.countP_append, List.countP_cons,
              ih1, ih2, ih3, hi1, hi2, hi3, hl1, hl2, hl3,
              Block.labelRanges]
             try omega)
termination_by bl _ _ => sizeOf bl
end

theorem sortTokens_sorted (l : List SemanticToken) :
    (sortTokens l).Pairwise
      (fun a b => a.range.start.byte ≤ b.range.start.byte) := by
  have h := @List.sorted_mergeSort SemanticToken
      (fun a b => a.range.start.byte ≤ b.range.start.byte)
      (by intro a b c hab hbc
          simp only [decide_eq_true_eq] at hab hbc ⊢
          omega)
      (by intro a b
          simp only [Bool.or_eq_true, decide_eq_true_eq]
          omega)
      l
  rw [sortTokens]
  exact h.imp (fun hab => by simpa using hab)

theorem sortTokens_countP (l : List SemanticToken) (p : SemanticToken → Bool) :
    (sortTokens l).countP p = l.countP p := by
  rw [sortTokens]
  exact (List.mergeSort_perm l _).countP_eq p

/-- C2 (amended): for a loaded document with an installed root schema,
`semantic_tokens` succeeds with a token list sorted ascending by the
byte offset of each token's range start; and provided no block's
dependency keys match a dependent body schema anywhere in the document,
the list carries exactly one attribute-name token per schema-recognized
attribute, one block-type token per schema-recognized block and one
block-label token per label whose index is within the declared label
schemas (unrecognized constructs and excess labels contribute none).
When a dependent body schema does match, the nested body is tokenized
once more against it, so a construct recognized by both schemas yields
one token per pass. -/
theorem c2_semantic_tokens_sorted_and_counted
    (d : Decoder) (filename nm : String) (body : Body)
    (rootSchema : BodySchema)
    (hfind : d.files.find? (fun p => p.1 == filename) = some (nm, some body))
    (hs : d.rootSchema = some rootSchema)
    (hnd : noDepBody body (some rootSchema) = true) :
    ∃ toks, d.SemanticTokensInFile filename = .ok toks
      ∧ toks.Pairwise (fun a b => a.range.start.byte ≤ b.range.start.byte)
      ∧ toks.countP (fun t => t.tokenType == .attrName)
          = (specTokenCounts body (some rootSchema)).1
      ∧ toks.countP (fun t => t.tokenType == .blockType)
          = (specTokenCounts body (some rootSchema)).2.1
      ∧ toks.countP (fun t => t.tokenType == .blockLabel)
          = (specTokenCounts body (some rootSchema)).2.2 := by
  obtain ⟨hc1, hc2, hc3⟩ :=
    specCounts_tokensForBody body (some rootSchema) false hnd
  refine ⟨sortTokens (tokensForBody body (some rootSchema) false), ?_,
    sortTokens_sorted _, ?_, ?_, ?_⟩
  · simp [Decoder.SemanticTokensInFile, Decoder.fileByName, hfind,
      bodyForFileAndPos, hs, Bind.bind, Except.bind]
  · rw [sortTokens_countP]
    exact hc1
  · rw [sortTokens_countP]
    exact hc2
  · rw [sortTokens_countP]
    exact hc3

/-- Witness for C2: the document `count = 1` /
`module "m" "extra" { source = "./x" }` against its schema — two
recognized attributes, one recognized block, one in-schema label (the
`"extra"` label is beyond the schema and yields nothing). -/
theorem c2_witness :
    (∃ toks, plainDecoder.SemanticTokensInFile "test.tf" = .ok toks
      ∧ toks.Pairwise (fun a b => a.range.start.byte ≤ b.range.start.byte)
      ∧ toks.countP (fun t => t.tokenType == .attrName)
          = (specTokenCounts plainBody (some plainRootSchema)).1
      ∧ toks.countP (fun t => t.tokenType == .blockType)
          = (specTokenCounts plainBody (some plainRootSchema)).2.1
      ∧ toks.countP (fun t => t.tokenType == .blockLabel)
          = (specTokenCounts plainBody (some plainRootSchema)).2.2)
    ∧ specTokenCounts plainBody (some plainRootSchema) = (2, 1, 1) := by
  have hnd : noDepBody plainBody (some plainRootSchema) = true := by
    simp [plainBody, plainRootSchema, plainModuleSchema,
      noDepBody, noDepBlocks, BodySchema.lookupBlock, BodySchema.blocks,
      BlockSchema.dependentBodySchema, dependencyKeysFromBlock,
      BlockSchema.labels, BlockSchema.body, Block.type, Block.labels,
      List.enum]
  have hev : tokensForBody plainBody (some plainRootSchema) false =
      [{ tokenType := .attrName, modifiers := [], range := exampleRange 0 5 },
       { tokenType := .numberTok, modifiers := [], range := exampleRange 8 9 },
       { tokenType := .blockType, modifiers := [], range := exampleRange 10 16 },
       { tokenType := .blockLabel, modifiers := [], range := exampleRange 17 20 },
       { tokenType := .attrName, modifiers := [], range := exampleRange 32 38 },
       { tokenType := .stringTok, modifiers := [], range := exampleRange 41 46 }] := by
    simp [plainBody, plainRootSchema, plainModuleSchema,
      tokensForBody, tokensForBlocks, tokensForAttributes,
      BodySchema.lookupBlock, BodySchema.lookupAttr, BodySchema.blocks,
      BodySchema.attributes, BodySchema.anyAttribute,
      BlockSchema.dependentBodySchema, BlockSchema.dependentBody,
      BlockSchema.labels, BlockSchema.body, BlockSchema.isDeprecated,
      Block.type, Block.labels, Block.labelRanges, Block.typeRange, Block.body,
      dependencyKeysFromBlock, List.enum, tokensForLabels, tokenModifiers,
      tokensForConstrainedExpression, literalExprForType, LiteralTypeOnly,
      CtyType.beq, CtyValue.typeOf, tokenForTypedExpression,
      CtyType.isPrimitiveType, tokensForLiteralValueExpr, Expr.range]
  obtain ⟨h1, h2, h3⟩ :=
    specCounts_tokensForBody plainBody (some plainRootSchema) false hnd
  refine ⟨c2_semantic_tokens_sorted_and_counted plainDecoder "test.tf"
    "test.tf" plainBody plainRootSchema (by simp [plainDecoder]) rfl hnd, ?_⟩
  exact Prod.ext_iff.2 ⟨h1.symm.trans (by rw [hev]; rfl), Prod.ext_iff.2
    ⟨h2.symm.trans (by rw [hev]; rfl), h3.symm.trans (by rw [hev]; rfl)⟩⟩

/-- Counterexample to C2 as stated: a block whose own body schema and
matching dependent body schema both declare the same attribute — the
output carries two attribute-name tokens for the document's single
schema-recognized attribute occurrence. -/
theorem c2_counterexample :
    ∃ toks, overlapDecoder.SemanticTokensInFile "test.tf" = .ok toks
      ∧ toks.countP (fun t => t.tokenType == .attrName) = 2
      ∧ overlapBlock.body.attributes.length = 1 := by
  refine ⟨sortTokens (tokensForBody (.mk [] [overlapBlock] (exampleRange 0 18))
      (some overlapRootSchema) false), ?_, ?_, rfl⟩
  · simp [Decoder.SemanticTokensInFile, Decoder.fileByName, overlapDecoder,
      bodyForFileAndPos, Bind.bind, Except.bind]
  · rw [sortTokens_countP]
    simp [tokensForBody, tokensForBlocks, tokensForAttributes,
      overlapBlock, overlapRootSchema, overlapBlockSchema, overlapBodySchema,
      BodySchema.lookupBlock, BodySchema.lookupAttr, BodySchema.blocks,
      BodySchema.attributes, BodySchema.anyAttribute,
      BlockSchema.dependentBodySchema, BlockSchema.dependentBody,
      BlockSchema.labels, BlockSchema.body, BlockSchema.isDeprecated,
      Block.type, Block.labels, Block.labelRanges, Block.typeRange, Block.body,
      dependencyKeysFromBlock, NewSchemaKey, List.mergeSort, SchemaKey.beq,
      List.enum, tokensForLabels, tokenModifiers,
      tokensForConstrainedExpression, literalExprForType, LiteralTypeOnly,
      CtyType.beq, CtyValue.typeOf, tokenForTypedExpression,
      CtyType.isPrimitiveType, tokensForLiteralValueExpr, Expr.range,
      List.countP_cons, List.countP_append]

/-- C8 (amended): on a loaded, non-degenerate document with no root
schema installed, hover fails with the no-schema error, but
semantic_tokens deliberately succeeds with the empty token list. -/
theorem c8_no_schema_behaviour
    (d : Decoder) (filename nm : String) (body : Body) (pos : Pos)
    (hfind : d.files.find? (fun p => p.1 == filename) = some (nm, some body))
    (hs : d.rootSchema = none) :
    d.HoverAtPos filename pos = .error .noSchema
    ∧ d.SemanticTokensInFile filename = .ok [] := by
  constructor <;>
    simp [Decoder.HoverAtPos, Decoder.SemanticTokensInFile,
      Decoder.fileByName, hfind, bodyForFileAndPos, hs,
      Bind.bind, Except.bind]

/-- Witness for C8: the concrete schema-less decoder. -/
theorem c8_witness :
    noSchemaDecoder.HoverAtPos "test.tf" ⟨1, 1, 0⟩ = .error .noSchema
    ∧ noSchemaDecoder.SemanticTokensInFile "test.tf" = .ok [] :=
  c8_no_schema_behaviour noSchemaDecoder "test.tf" "test.tf"
    (.mk [] [] (exampleRange 0 0)) ⟨1, 1, 0⟩
    (by simp [noSchemaDecoder]) rfl

/-- Counterexample to C8 as stated: a query issued before any schema is
installed does not always fail with the no-schema error —
semantic_tokens returns the empty token list with no error at all. -/
theorem c8_counterexample :
    noSchemaDecoder.SemanticTokensInFile "test.tf" = .ok []
    ∧ ∀ e, noSchemaDecoder.SemanticTokensInFile "test.tf" ≠ .error e := by
  constructor
  · rfl
  · intro e h
    exact Except.noConfusion h

theorem hoverOverAttributes_none (filename : String) (bs : BodySchema)
    (pos : Pos) :
    ∀ attrs : List Attribute,
    (∀ a ∈ attrs, a.srcRange.containsPos pos = false) →
    hoverOverAttributes filename bs pos attrs = none
  | [] => fun _ => rfl
  | attr :: rest => fun h => by
      rw [hoverOverAttributes]
      simp [h attr (by simp)]
      exact hoverOverAttributes_none filename bs pos rest
        (fun a ha => h a (by simp [ha]))

theorem hoverLabels_out_of_range (d : Decoder) (filename : String)
    (block : Block) (bSchema : BlockSchema) (pos : Pos) :
    ∀ (pre : List Range) (i : Nat) (r : Range) (post : List Range),
    (∀ q ∈ pre, q.containsPos pos = false) →
    r.containsPos pos = true →
    bSchema.labels.length ≤ i + pre.length →
    ∃ msg, hoverLabels d filename block bSchema pos i (pre ++ r :: post)
      = some (.error (.positional filename pos msg))
  | [], i, r, post => fun _ hr hlen => by
      have hlt : bSchema.labels.length < i + 1 := by
        simp at hlen
        omega
      exact ⟨"unexpected label (" ++ toString i ++ ") "
          ++ goQuote (block.labels.getD i ""), by
        rw [List.nil_append, hoverLabels]
        simp [hr, hlt]⟩
  | q :: pre, i, r, post => fun hpre hr hlen => by
      obtain ⟨msg, hmsg⟩ := hoverLabels_out_of_range d filename block bSchema
        pos pre (i + 1) r post
        (fun a ha => hpre a (by simp [ha]))
        hr (by simp at hlen ⊢; omega)
      refine ⟨msg, ?_⟩
      rw [List.cons_append, hoverLabels]
      simp [hpre q (by simp), hmsg]

/-- C9 (amended): hover at a position inside a block label whose index
is at or beyond the number of declared label schemas returns the
"unexpected label" positional error — it does not fall back to showing
the raw label text (that fallback applies only to in-range labels with
no dependent-schema match). -/
theorem c9_label_out_of_range
    (d : Decoder) (attrs : List Attribute) (block : Block) (rng : Range)
    (bs : BodySchema) (bSchema : BlockSchema) (pos : Pos)
    (pre : List Range) (r : Range) (post : List Range)
    (hattrs : ∀ a ∈ attrs, a.srcRange.containsPos pos = false)
    (hin : block.srcRange.containsPos pos = true)
    (hlookup : bs.lookupBlock block.type = some bSchema)
    (htype : block.typeRange.containsPos pos = false)
    (hlr : block.labelRanges = pre ++ r :: post)
    (hpre : ∀ q ∈ pre, q.containsPos pos = false)
    (hr : r.containsPos pos = true)
    (hlen : bSchema.labels.length ≤ pre.length) :
    ∃ msg, hoverAtPos d (.mk attrs [block] rng) (some bs) pos
      = .error (.positional rng.filename pos msg) := by
  obtain ⟨ty, lbls, bb, tyR, lR, sR⟩ := block
  simp only [Block.srcRange, Block.type, Block.typeRange, Block.labelRanges]
    at hin hlookup htype hlr
  subst hlr
  obtain ⟨msg, hmsg⟩ := hoverLabels_out_of_range d rng.filename
    (.mk ty lbls bb tyR (pre ++ r :: post) sR) bSchema pos pre 0 r post
    hpre hr (by simpa using hlen)
  refine ⟨msg, ?_⟩
  rw [hoverAtPos]
  rw [hoverOverAttributes_none _ _ _ attrs
    (by simpa [Body.srcRange] using hattrs)]
  rw [hoverOverBlocks]
  simp [Body.srcRange, Block.srcRange, Block.type, Block.typeRange,
    Block.labelRanges, hin, hlookup, htype, hmsg]

/-- Witness for C9: hovering the out-of-range `"extra"` label of the
concrete two-label document resolves to a positional error. -/
theorem c9_witness :
    ∃ msg, hoverAtPos twoLabelDecoder twoLabelBody (some oneLabelRootSchema)
        ⟨1, 23, 22⟩
      = .error (.positional "test.tf" ⟨1, 23, 22⟩ msg) := by
  have h := c9_label_out_of_range twoLabelDecoder [] twoLabelBlock
    (exampleRange 0 40) oneLabelRootSchema
    (.mk [{ name := "name" }] none [] false "" (PlainText "") none)
    ⟨1, 23, 22⟩ [exampleRange 17 20] (exampleRange 21 28) []
    (by simp)
    (by decide)
    (by rfl)
    (by decide)
    (by rfl)
    (by decide)
    (by decide)
    (by decide)
  simpa [twoLabelBody, exampleRange] using h

/-- Counterexample to C9 as stated: the hover resolution at the
out-of-range `"extra"` label of the concrete two-label document returns
a positional error — no hover data (raw label text or otherwise) is
produced. -/
theorem c9_counterexample :
    (∃ msg, hoverAtPos twoLabelDecoder twoLabelBody (some oneLabelRootSchema)
        ⟨1, 23, 22⟩ = .error (.positional "test.tf" ⟨1, 23, 22⟩ msg))
    ∧ ∀ hd, hoverAtPos twoLabelDecoder twoLabelBody (some oneLabelRootSchema)
        ⟨1, 23, 22⟩ ≠ .ok hd := by
  obtain ⟨msg, hmsg⟩ := hoverLabels_out_of_range twoLabelDecoder "test.tf"
    (.mk "module" ["m", "extra"] (.mk [] [] (exampleRange 29 31))
      (exampleRange 10 16) [exampleRange 17 20, exampleRange 21 28]
      (exampleRange 10 31))
    (.mk [{ name := "name" }] none [] false "" (PlainText "") none)
    ⟨1, 23, 22⟩ [exampleRange 17 20] 0 (exampleRange 21 28) []
    (by decide) (by decide) (by decide)
  simp only [List.cons_append, List.nil_append, exampleRange] at hmsg
  have hres : hoverAtPos twoLabelDecoder twoLabelBody
      (some oneLabelRootSchema) ⟨1, 23, 22⟩
      = .error (.positional "test.tf" ⟨1, 23, 22⟩ msg) := by
    simp only [twoLabelBody, twoLabelBlock]
    rw [hoverAtPos]
    rw [hoverOverAttributes_none _ _ _ [] (by simp)]
    rw [hoverOverBlocks]
    simp [Body.srcRange, Block.srcRange, Block.type, Block.typeRange,
      Block.labelRanges, oneLabelRootSchema, BodySchema.lookupBlock,
      BodySchema.blocks, Range.containsPos, exampleRange, hmsg]
  refine ⟨⟨msg, hres⟩, ?_⟩
  intro hd h
  rw [hres] at h
  exact Except.noConfusion h

theorem head_data_append (s t : String) (c : Char)
    (h : s.data.head? = some c) : (s ++ t).data.head? = some c := by
  rw [String.data_append]
  cases hs : s.data with
  | nil => simp [hs] at h
  | cons a l =>
      rw [hs] at h
      simpa using h

/-- C7: for every compound type, the generated insertion-text skeleton
is self-consistent with the constraint that produced it: the text opens
with the sequence bracket `[` exactly for list/set/tuple types and with
the keyed bracket for map/object types, the (modelled) parse of the
skeleton is correspondingly a sequence or keyed construction, and
matching that parse against the same literal type constraint resolves
successfully in the expression constraint engine (never the unsupported
error). -/
theorem c7_skeleton_roundtrip (t : CtyType) (h : t.isCompound = true) :
    (∀ e, hoverContentForExpr (skeletonExprForType t) (LiteralTypeOnly t)
        ≠ .error e)
    ∧ ((t.isListType || t.isSetType || t.isTupleType) = true →
        (newTextForType t).data.head? = some '[' ∧
        ∃ es rng, skeletonExprForType t = .tupleConsExpr es rng)
    ∧ ((t.isMapType || t.isObjectType) = true →
        (newTextForType t).data.head? = some '\x7b' ∧
        ∃ items rng, skeletonExprForType t = .objectConsExpr items rng) := by
  cases t with
  | string =>
      simp [CtyType.isCompound, CtyType.isListType, CtyType.isSetType,
        CtyType.isTupleType, CtyType.isMapType, CtyType.isObjectType] at h
  | bool =>
      simp [CtyType.isCompound, CtyType.isListType, CtyType.isSetType,
        CtyType.isTupleType, CtyType.isMapType, CtyType.isObjectType] at h
  | number =>
      simp [CtyType.isCompound, CtyType.isListType, CtyType.isSetType,
        CtyType.isTupleType, CtyType.isMapType, CtyType.isObjectType] at h
  | dynamicPseudoType =>
      simp [CtyType.isCompound, CtyType.isListType, CtyType.isSetType,
        CtyType.isTupleType, CtyType.isMapType, CtyType.isObjectType] at h
  | nil =>
      simp [CtyType.isCompound, CtyType.isListType, CtyType.isSetType,
        CtyType.isTupleType, CtyType.isMapType, CtyType.isObjectType] at h
  | list el =>
      refine ⟨?_, fun _ => ⟨?_, _, _, by rw [skeletonExprForType]⟩,
        fun hk => by simp [CtyType.isMapType, CtyType.isObjectType] at hk⟩
      · intro e
        simp [skeletonExprForType, hoverContentForExpr, LiteralTypeOnly,
          listTypeLiteralConstraint, CtyType.isListType,
          hoverContentForValueAndType, CtyType.isPrimitiveType,
          CtyType.isObjectType, CtyType.isMapType]
      · rw [newTextForType]
        exact head_data_append _ _ _ (head_data_append _ _ _ (by decide))
  | set el =>
      refine ⟨?_, fun _ => ⟨?_, _, _, by rw [skeletonExprForType]⟩,
        fun hk => by simp [CtyType.isMapType, CtyType.isObjectType] at hk⟩
      · intro e
        simp [skeletonExprForType, hoverContentForExpr, LiteralTypeOnly,
          listTypeLiteralConstraint, setTypeLiteralConstraint,
          CtyType.isListType, CtyType.isSetType,
          hoverContentForValueAndType, CtyType.isPrimitiveType,
          CtyType.isObjectType, CtyType.isMapType]
      · rw [newTextForType]
        exact head_data_append _ _ _ (head_data_append _ _ _ (by decide))
  | tuple elTypes =>
      refine ⟨?_, fun _ => ⟨?_, _, _, by rw [skeletonExprForType]⟩,
        fun hk => by simp [CtyType.isMapType, CtyType.isObjectType] at hk⟩
      · intro e
        simp [skeletonExprForType, hoverContentForExpr, LiteralTypeOnly,
          listTypeLiteralConstraint, setTypeLiteralConstraint,
          tupleTypeLiteralConstraint, CtyType.isListType, CtyType.isSetType,
          CtyType.isTupleType, hoverContentForValueAndType,
          CtyType.isPrimitiveType, CtyType.isObjectType, CtyType.isMapType]
      · cases elTypes with
        | nil =>
            simp only [newTextForType]
            exact head_data_append _ _ _ (head_data_append _ _ _ (by decide))
        | cons e1 rest =>
            cases rest with
            | nil =>
                rw [newTextForType]
                exact head_data_append _ _ _ (head_data_append _ _ _ (by decide))
            | cons e2 rest2 =>
                simp only [newTextForType]
                exact head_data_append _ _ _ (head_data_append _ _ _ (by decide))
  | map el =>
      refine ⟨?_,
        fun hk => by
          simp [CtyType.isListType, CtyType.isSetType, CtyType.isTupleType] at hk,
        fun _ => ⟨?_, _, _, by rw [skeletonExprForType]⟩⟩
      · intro e
        simp [skeletonExprForType, hoverContentForExpr, LiteralTypeOnly,
          objectTypeLiteralConstraint, mapTypeLiteralConstraint,
          CtyType.isObjectType, CtyType.isMapType,
          hoverContentForValueAndType, CtyType.isPrimitiveType]
      · rw [newTextForType]
        exact head_data_append _ _ _ (head_data_append _ _ _ (by decide))
  | object attrs =>
      refine ⟨?_,
        fun hk => by
          simp [CtyType.isListType, CtyType.isSetType, CtyType.isTupleType] at hk,
        fun _ => ⟨?_, _, _, by rw [skeletonExprForType]⟩⟩
      · intro e
        rw [skeletonExprForType, hoverContentForExpr]
        rw [show objectTypeLiteralConstraint (LiteralTypeOnly (.object attrs))
            = some ⟨.object attrs⟩ from by
          simp [LiteralTypeOnly, objectTypeLiteralConstraint,
            CtyType.isObjectType]]
        show hoverContentForValueAndType (.nullVal (.object attrs))
          (.object attrs) ≠ .error e
        unfold hoverContentForValueAndType
        rw [if_neg (by simp [CtyType.isPrimitiveType])]
        rw [if_pos (by simp [CtyType.isObjectType])]
        by_cases hE : (sortedObjectAttrNames (CtyType.object attrs)).isEmpty = true
        · simp [hE]
        · simp [hE]
      · rw [newTextForType]
        exact head_data_append _ _ _ (head_data_append _ _ _ (by decide))

/-- Witness for C7: the list-of-number constraint — its skeleton
insertion text is `[ 1 ]`, opening with the sequence bracket, and its
parse resolves successfully against the same constraint. -/
theorem c7_witness :
    (∀ e, hoverContentForExpr (skeletonExprForType (.list .number))
        (LiteralTypeOnly (.list .number)) ≠ .error e)
    ∧ (newTextForType (.list .number)).data.head? = some '['
    ∧ newTextForType (.list .number) = "[ 1 ]" := by
  have h := c7_skeleton_roundtrip (.list .number) (by decide)
  refine ⟨h.1, (h.2.1 (by decide)).1, ?_⟩
  simp [newTextForType]

end HclLang
